import Mathlib

/-!
The NativePHP bridge (`bridge_jni.cpp`).

A shallow embedding of `nativephp/android/app/src/main/cpp/bridge_jni.cpp`.

The C++ file keeps three cached handles in static variables, reads the shared
`g_jvm` pointer, and talks to the Java virtual machine through JNI.  The embedding
threads an explicit `World` through every function: the four globals, the part of
the virtual machine that JNI makes observable (thread contexts, local and global
references, character buffers handed out by `GetStringUTFChars`) and a trace of
the JNI calls made so far.  What the virtual machine decides on its own (whether a
class exists, whether an allocation succeeds, what the Kotlin router answers) is a
`Host`, a record of functions of the current world and the call arguments.

Conventions.
* A C pointer that may be null is an `Option`; `none` is the null pointer.
* A `const char*` is the text in front of its terminating NUL, a `String`.  The
  text handed to `NewStringUTF` is assumed to be valid modified UTF-8, and a Java
  string is represented by that encoding, so `GetStringUTFChars` hands back the
  text the string was built from.
* `jint` and `int` are both 32 bits wide on Android, so `static_cast<int>` of a
  `jint` is the identity; both are `Int`.
* The logging macros `LOGI` and `LOGE` have no effect on the state and are left out.
* A `JNIEnv*` only selects the calling thread.  The JNI functions of the model act
  on the world directly; where the thread matters (`GetEnv`, `AttachCurrentThread`)
  it is the explicit parameter `t`.  `InitializeBridgeJNI` is handed its `JNIEnv*`
  by the caller and uses it only to make its JNI calls, so the model leaves it out.
-/

namespace BridgeJNI

/-! ## JNI vocabulary -/

abbrev ThreadId := Nat
abbrev JNIEnv := Nat
abbrev JavaVM := Nat
abbrev Ref := Nat
abbrev MethodID := Nat
abbrev CharPtr := Nat

/-- The JNI status code for success, as fixed by `jni.h`. -/
def JNI_OK : Int := 0
/-- The JNI status code for an unspecified error, as fixed by `jni.h`. -/
def JNI_ERR : Int := -1
/-- The JNI status code of `GetEnv` for a thread that is not attached. -/
def JNI_EDETACHED : Int := -2
/-- The JNI status code of `GetEnv` for a JNI version the machine does not support. -/
def JNI_EVERSION : Int := -3

/-- An object of the Java heap, as far as the bridge can tell objects apart. -/
inductive JObject
  | cls (name : String)
  | str (chars : String)
  deriving DecidableEq, Repr

/-- What the virtual machine sees when it is handed a reference: the null reference,
a live object, or a handle that is not (or no longer) in the reference table. -/
inductive JValue
  | null
  | obj (o : JObject)
  | stale (r : Ref)
  deriving DecidableEq, Repr

/-- The answer `GetEnv` gives for a thread: a context, "not attached", or
"version not supported". -/
inductive ThreadCtx
  | attached (env : JNIEnv)
  | detached
  | unsupported
  deriving DecidableEq, Repr

/-- One entry of the trace: a JNI function (or `strdup`) the bridge called, with the
values the callee was given. -/
inductive Event
  | FindClass (name : String)
  | NewGlobalRef (obj : JValue)
  | DeleteLocalRef (r : Ref)
  | GetStaticMethodID (cls : JValue) (name sig : String)
  | GetEnv (t : ThreadId)
  | AttachCurrentThread (t : ThreadId)
  | NewStringUTF (chars : String)
  | CallStaticIntMethod (cls : Option Ref) (mid : Option MethodID) (arg : JValue)
  | CallStaticObjectMethod (cls : Option Ref) (mid : Option MethodID) (arg1 arg2 : JValue)
  | GetStringUTFChars (r : Ref)
  | strdup (p : CharPtr)
  | ReleaseStringUTFChars (r : Ref) (p : CharPtr)
  deriving DecidableEq, Repr

/-- Whether the event enters one of the two entry points of the Kotlin router. -/
def Event.isInvoke : Event → Bool
  | .CallStaticIntMethod _ _ _ => true
  | .CallStaticObjectMethod _ _ _ _ => true
  | _ => false

/-- Whether the event is an attempt to attach a thread. -/
def Event.isAttach : Event → Bool
  | .AttachCurrentThread _ => true
  | _ => false

/-- The invocations of router entry points recorded in a trace, oldest first. -/
def hostInvocations (tr : List Event) : List Event :=
  tr.filter Event.isInvoke

/-- The attach attempts recorded in a trace, oldest first. -/
def attachAttempts (tr : List Event) : List Event :=
  tr.filter Event.isAttach

/-! ## Handle tables -/

/-- The newest entry stored under key `k`. -/
def assocGet {α : Type} (k : Nat) : List (Nat × α) → Option α
  | [] => none
  | (k', v) :: rest => if k' = k then some v else assocGet k rest

/-- The table without its newest entry under key `k`. -/
def assocErase {α : Type} (k : Nat) : List (Nat × α) → List (Nat × α)
  | [] => []
  | (k', v) :: rest => if k' = k then rest else (k', v) :: assocErase k rest

/-! ## The state -/

/-- The globals of `bridge_jni.cpp`, the shared `g_jvm`, and the observable state
of the virtual machine. -/
structure World where
  g_jvm : Option JavaVM
  g_bridgeRouterClass : Option Ref
  g_nativePHPCanMethod : Option MethodID
  g_nativePHPCallMethod : Option MethodID
  threads : List (ThreadId × ThreadCtx)
  locals : List (Ref × JObject)
  globals : List (Ref × JObject)
  pinned : List (CharPtr × String)
  fresh : Nat
  trace : List Event
  deriving DecidableEq, Repr

/-- Append an event to the trace. -/
def World.log (w : World) (e : Event) : World :=
  { w with trace := w.trace ++ [e] }

/-- The context of thread `t`; a thread the machine has never seen is detached. -/
def World.threadCtx (w : World) (t : ThreadId) : ThreadCtx :=
  (assocGet t w.threads).getD ThreadCtx.detached

/-- The value behind a local reference. -/
def World.resolveLocal (w : World) : Option Ref → JValue
  | none => JValue.null
  | some r =>
    match assocGet r w.locals with
    | some o => JValue.obj o
    | none => JValue.stale r

/-- The value behind a global reference. -/
def World.resolveGlobal (w : World) : Option Ref → JValue
  | none => JValue.null
  | some r =>
    match assocGet r w.globals with
    | some o => JValue.obj o
    | none => JValue.stale r

/-- A new local reference to `o`. -/
def World.newLocal (w : World) (o : JObject) : Ref × World :=
  (w.fresh, { w with locals := (w.fresh, o) :: w.locals, fresh := w.fresh + 1 })

/-- The decisions of the virtual machine that the bridge does not control.  Every
field sees the world at the moment of the call. -/
structure Host where
  findClassOk : World → String → Bool
  newGlobalRefOk : World → JObject → Bool
  methodID : World → JValue → String → String → Option MethodID
  attachOk : World → ThreadId → Option JNIEnv
  newStringOk : World → String → Bool
  callStaticInt : World → Option Ref → Option MethodID → JValue → Int
  callStaticObject : World → Option Ref → Option MethodID → JValue → JValue → Option String
  utfCharsOk : World → String → Bool
  strdupOk : World → String → Bool

/-! ## JNI functions used by the bridge -/

/-- JNI `FindClass`: a local reference to the class, or null. -/
def FindClass (h : Host) (name : String) (w : World) : Option Ref × World :=
  let w1 := w.log (Event.FindClass name)
  if h.findClassOk w name then
    let (r, w2) := w1.newLocal (JObject.cls name)
    (some r, w2)
  else (none, w1)

/-- JNI `NewGlobalRef`: a global reference to the object behind a local one, or null. -/
def NewGlobalRef (h : Host) (r : Ref) (w : World) : Option Ref × World :=
  let w1 := w.log (Event.NewGlobalRef (w.resolveLocal (some r)))
  match assocGet r w.locals with
  | some o =>
    if h.newGlobalRefOk w o then
      (some w.fresh, { w1 with globals := (w.fresh, o) :: w.globals, fresh := w.fresh + 1 })
    else (none, w1)
  | none => (none, w1)

/-- JNI `DeleteLocalRef`. -/
def DeleteLocalRef (r : Ref) (w : World) : World :=
  { w.log (Event.DeleteLocalRef r) with locals := assocErase r w.locals }

/-- JNI `GetStaticMethodID` on a class held by a global reference. -/
def GetStaticMethodID (h : Host) (cls : Ref) (name sig : String) (w : World) :
    Option MethodID × World :=
  let c := w.resolveGlobal (some cls)
  (h.methodID w c name sig, w.log (Event.GetStaticMethodID c name sig))

/-- JNI `JavaVM::GetEnv` for the calling thread: status code and context. -/
def GetEnv (t : ThreadId) (w : World) : (Int × Option JNIEnv) × World :=
  let w1 := w.log (Event.GetEnv t)
  match w.threadCtx t with
  | ThreadCtx.attached e => ((JNI_OK, some e), w1)
  | ThreadCtx.detached => ((JNI_EDETACHED, none), w1)
  | ThreadCtx.unsupported => ((JNI_EVERSION, none), w1)

/-- JNI `JavaVM::AttachCurrentThread`: on success the thread owns the new context
from then on. -/
def AttachCurrentThread (h : Host) (t : ThreadId) (w : World) :
    (Int × Option JNIEnv) × World :=
  let w1 := w.log (Event.AttachCurrentThread t)
  match h.attachOk w t with
  | some e => ((JNI_OK, some e), { w1 with threads := (t, ThreadCtx.attached e) :: w.threads })
  | none => ((JNI_ERR, none), w1)

/-- JNI `NewStringUTF`: a local reference to a new Java string, or null. -/
def NewStringUTF (h : Host) (chars : String) (w : World) : Option Ref × World :=
  let w1 := w.log (Event.NewStringUTF chars)
  if h.newStringOk w chars then
    let (r, w2) := w1.newLocal (JObject.str chars)
    (some r, w2)
  else (none, w1)

/-- JNI `CallStaticIntMethod` with one string argument. -/
def CallStaticIntMethod (h : Host) (cls : Option Ref) (mid : Option MethodID) (arg : Ref)
    (w : World) : Int × World :=
  let a := w.resolveLocal (some arg)
  (h.callStaticInt w cls mid a, w.log (Event.CallStaticIntMethod cls mid a))

/-- JNI `CallStaticObjectMethod` with two string arguments; a result that is not null
comes back as a new local reference. -/
def CallStaticObjectMethod (h : Host) (cls : Option Ref) (mid : Option MethodID)
    (arg1 : Ref) (arg2 : Option Ref) (w : World) : Option Ref × World :=
  let a1 := w.resolveLocal (some arg1)
  let a2 := w.resolveLocal arg2
  let w1 := w.log (Event.CallStaticObjectMethod cls mid a1 a2)
  match h.callStaticObject w cls mid a1 a2 with
  | some s =>
    let (r, w2) := w1.newLocal (JObject.str s)
    (some r, w2)
  | none => (none, w1)

/-- JNI `GetStringUTFChars`: a character buffer holding the text of the string, or
null. -/
def GetStringUTFChars (h : Host) (r : Ref) (w : World) : Option CharPtr × World :=
  let w1 := w.log (Event.GetStringUTFChars r)
  match assocGet r w.locals with
  | some (JObject.str s) =>
    if h.utfCharsOk w s then
      (some w.fresh, { w1 with pinned := (w.fresh, s) :: w.pinned, fresh := w.fresh + 1 })
    else (none, w1)
  | _ => (none, w1)

/-- JNI `ReleaseStringUTFChars`. -/
def ReleaseStringUTFChars (r : Ref) (p : CharPtr) (w : World) : World :=
  { w.log (Event.ReleaseStringUTFChars r p) with pinned := assocErase p w.pinned }

/-- C `strdup`: the text read from a live character buffer, in a buffer of its own;
null when the allocation fails (or the buffer is gone). -/
def strdup (h : Host) (p : CharPtr) (w : World) : Option String × World :=
  let w1 := w.log (Event.strdup p)
  match assocGet p w.pinned with
  | some s => if h.strdupOk w s then (some s, w1) else (none, w1)
  | none => (none, w1)

/-! ## `bridge_jni.cpp` -/

/-- The class name looked up by `InitializeBridgeJNI`. -/
def routerClassName : String := "com/nativephp/mobile/bridge/BridgeRouterKt"

/-- The signature of the existence check. -/
def canSignature : String := "(Ljava/lang/String;)I"

/-- The signature of the invoke entry point. -/
def callSignature : String := "(Ljava/lang/String;Ljava/lang/String;)Ljava/lang/String;"

/-- The function `InitializeBridgeJNI` (lines 17-55). -/
def InitializeBridgeJNI (h : Host) (w : World) : Int × World :=
  match FindClass h routerClassName w with
  | (none, w1) => (JNI_ERR, w1)
  | (some localClass, w1) =>
    let (g, w2) := NewGlobalRef h localClass w1
    let w3 := { w2 with g_bridgeRouterClass := g }
    let w4 := DeleteLocalRef localClass w3
    match w4.g_bridgeRouterClass with
    | none => (JNI_ERR, w4)
    | some cls =>
      let (m1, w5) := GetStaticMethodID h cls "nativePHPCan" canSignature w4
      let w6 := { w5 with g_nativePHPCanMethod := m1 }
      match w6.g_nativePHPCanMethod with
      | none => (JNI_ERR, w6)
      | some _ =>
        let (m2, w7) := GetStaticMethodID h cls "nativePHPCall" callSignature w6
        let w8 := { w7 with g_nativePHPCallMethod := m2 }
        match w8.g_nativePHPCallMethod with
        | none => (JNI_ERR, w8)
        | some _ => (JNI_OK, w8)

/-- The function `GetJNIEnv` (lines 58-81), run on thread `t`. -/
def GetJNIEnv (h : Host) (t : ThreadId) (w : World) : Option JNIEnv × World :=
  match w.g_jvm with
  | none => (none, w)
  | some _ =>
    let ((result, env), w1) := GetEnv t w
    if result = JNI_EDETACHED then
      let ((result2, env2), w2) := AttachCurrentThread h t w1
      if result2 ≠ JNI_OK then (none, w2) else (env2, w2)
    else if result ≠ JNI_OK then (none, w1)
    else (env, w1)

/-- The function `NativePHPCan` (lines 91-115), run on thread `t`. -/
def NativePHPCan (h : Host) (t : ThreadId) (functionName : Option String) (w : World) :
    Int × World :=
  match functionName with
  | none => (0, w)
  | some fname =>
    match GetJNIEnv h t w with
    | (none, w1) => (0, w1)
    | (some _, w1) =>
      match NewStringUTF h fname w1 with
      | (none, w2) => (0, w2)
      | (some jFunctionName, w2) =>
        let (result, w3) :=
          CallStaticIntMethod h w2.g_bridgeRouterClass w2.g_nativePHPCanMethod jFunctionName w2
        let w4 := DeleteLocalRef jFunctionName w3
        (result, w4)

/-- Lines 151-160 of `NativePHPCall`: the reference passed for `parametersJSON`.  The
outer `none` is the early exit taken when the string cannot be created; `some none`
is the null reference that stands for absent parameters. -/
def marshalParameters (h : Host) (parametersJSON : Option String) (w : World) :
    Option (Option Ref) × World :=
  match parametersJSON with
  | none => (some none, w)
  | some p =>
    match NewStringUTF h p w with
    | (none, w1) => (none, w1)
    | (some r, w1) => (some (some r), w1)

/-- Lines 177-195 of `NativePHPCall`: the text of the result string is copied into a
buffer of its own, then the characters and the reference are released. -/
def copyResult (h : Host) (jResult : Ref) (w : World) : Option String × World :=
  match GetStringUTFChars h jResult w with
  | (none, w1) => (none, DeleteLocalRef jResult w1)
  | (some resultStr, w1) =>
    let (resultCopy, w2) := strdup h resultStr w1
    let w3 := ReleaseStringUTFChars jResult resultStr w2
    let w4 := DeleteLocalRef jResult w3
    (resultCopy, w4)

/-- Lines 166-169 of `NativePHPCall`: both argument references are released. -/
def releaseArguments (jFunctionName : Ref) (jParametersJSON : Option Ref) (w : World) : World :=
  let w1 := DeleteLocalRef jFunctionName w
  match jParametersJSON with
  | some r => DeleteLocalRef r w1
  | none => w1

/-- The function `NativePHPCall` (lines 124-196), run on thread `t`.  The result is the text of
the buffer handed to the caller. -/
def NativePHPCall (h : Host) (t : ThreadId) (functionName parametersJSON : Option String)
    (w : World) : Option String × World :=
  match functionName with
  | none => (none, w)
  | some fname =>
    match GetJNIEnv h t w with
    | (none, w1) => (none, w1)
    | (some _, w1) =>
      match NewStringUTF h fname w1 with
      | (none, w2) => (none, w2)
      | (some jFunctionName, w2) =>
        match marshalParameters h parametersJSON w2 with
        | (none, w3) => (none, DeleteLocalRef jFunctionName w3)
        | (some jParametersJSON, w3) =>
          let (jResult, w4) :=
            CallStaticObjectMethod h w3.g_bridgeRouterClass w3.g_nativePHPCallMethod
              jFunctionName jParametersJSON w3
          let w5 := releaseArguments jFunctionName jParametersJSON w4
          match jResult with
          | none => (none, w5)
          | some res => copyResult h res w5

/-- The argument the router is to see for `parametersJSON` according to the
specification: the null reference for a null pointer, otherwise a string with the
same text. -/
def parametersValue : Option String → JValue
  | none => JValue.null
  | some p => JValue.obj (JObject.str p)

/-! ## Sample hosts and worlds -/

/-- A world before `InitializeBridgeJNI`: `g_jvm` is set, thread 0 is attached with
context 7, thread 2 is attached to a machine that rejects the requested version,
every other thread is detached, and the three cached handles are null. -/
def bootWorld : World :=
  { g_jvm := some 1
    g_bridgeRouterClass := none
    g_nativePHPCanMethod := none
    g_nativePHPCallMethod := none
    threads := [(0, ThreadCtx.attached 7), (2, ThreadCtx.unsupported)]
    locals := []
    globals := []
    pinned := []
    fresh := 100
    trace := [] }

/-- A host whose router echoes the parameters of every call and knows every name:
the class and both methods exist, no allocation fails, every thread can be attached. -/
def echoHost : Host :=
  { findClassOk := fun _ _ => true
    newGlobalRefOk := fun _ _ => true
    methodID := fun _ _ name _ => some name.length
    attachOk := fun _ t => some (t + 50)
    newStringOk := fun _ _ => true
    callStaticInt := fun _ _ _ _ => 1
    callStaticObject := fun _ _ _ _ a2 =>
      match a2 with
      | JValue.obj (JObject.str s) => some s
      | _ => none
    utfCharsOk := fun _ _ => true
    strdupOk := fun _ _ => true }

/-- The echo host with the router class missing. -/
def noRouterHost : Host :=
  { echoHost with findClassOk := fun _ _ => false }

/-- The echo host with an existence check that answers 2. -/
def twoHost : Host :=
  { echoHost with callStaticInt := fun _ _ _ _ => 2 }

/-- The echo host with a `GetStringUTFChars` that always fails. -/
def noCharsHost : Host :=
  { echoHost with utfCharsOk := fun _ _ => false }

/-- The echo host with a `NewStringUTF` that always fails. -/
def noStringHost : Host :=
  { echoHost with newStringOk := fun _ _ => false }

/-- The world after a successful `InitializeBridgeJNI` on the echo host. -/
def readyWorld : World :=
  (InitializeBridgeJNI echoHost bootWorld).2


/-! ## Handle tables and the trace -/

@[simp] theorem assocGet_cons_self {α : Type} (k : Nat) (v : α) (l : List (Nat × α)) :
    assocGet k ((k, v) :: l) = some v := by
  simp [assocGet]

@[simp] theorem assocErase_cons_self {α : Type} (k : Nat) (v : α) (l : List (Nat × α)) :
    assocErase k ((k, v) :: l) = l := by
  simp [assocErase]

theorem assocGet_cons_ne {α : Type} (k k2 : Nat) (v : α) (l : List (Nat × α)) (hne : k2 ≠ k) :
    assocGet k ((k2, v) :: l) = assocGet k l := by
  simp [assocGet, hne]

theorem assocErase_cons_ne {α : Type} (k k2 : Nat) (v : α) (l : List (Nat × α)) (hne : k2 ≠ k) :
    assocErase k ((k2, v) :: l) = (k2, v) :: assocErase k l := by
  simp [assocErase, hne]

@[simp] theorem log_g_jvm (w : World) (e : Event) : (w.log e).g_jvm = w.g_jvm := rfl
@[simp] theorem log_g_bridgeRouterClass (w : World) (e : Event) :
    (w.log e).g_bridgeRouterClass = w.g_bridgeRouterClass := rfl
@[simp] theorem log_g_nativePHPCanMethod (w : World) (e : Event) :
    (w.log e).g_nativePHPCanMethod = w.g_nativePHPCanMethod := rfl
@[simp] theorem log_g_nativePHPCallMethod (w : World) (e : Event) :
    (w.log e).g_nativePHPCallMethod = w.g_nativePHPCallMethod := rfl
@[simp] theorem log_threads (w : World) (e : Event) : (w.log e).threads = w.threads := rfl
@[simp] theorem log_locals (w : World) (e : Event) : (w.log e).locals = w.locals := rfl
@[simp] theorem log_globals (w : World) (e : Event) : (w.log e).globals = w.globals := rfl
@[simp] theorem log_pinned (w : World) (e : Event) : (w.log e).pinned = w.pinned := rfl
@[simp] theorem log_fresh (w : World) (e : Event) : (w.log e).fresh = w.fresh := rfl
@[simp] theorem log_trace (w : World) (e : Event) : (w.log e).trace = w.trace ++ [e] := rfl
@[simp] theorem log_threadCtx (w : World) (e : Event) (t : ThreadId) :
    (w.log e).threadCtx t = w.threadCtx t := rfl

/-! ## `GetJNIEnv` case by case -/

theorem GetJNIEnv_no_jvm (h : Host) (t : ThreadId) (w : World) (hj : w.g_jvm = none) :
    GetJNIEnv h t w = (none, w) := by
  simp [GetJNIEnv, hj]

theorem GetJNIEnv_attached (h : Host) (t : ThreadId) (w : World) (vm : JavaVM) (e : JNIEnv)
    (hj : w.g_jvm = some vm) (hc : w.threadCtx t = ThreadCtx.attached e) :
    GetJNIEnv h t w = (some e, w.log (Event.GetEnv t)) := by
  simp [GetJNIEnv, GetEnv, hj, hc, JNI_OK, JNI_EDETACHED]

theorem GetJNIEnv_unsupported (h : Host) (t : ThreadId) (w : World) (vm : JavaVM)
    (hj : w.g_jvm = some vm) (hc : w.threadCtx t = ThreadCtx.unsupported) :
    GetJNIEnv h t w = (none, w.log (Event.GetEnv t)) := by
  simp [GetJNIEnv, GetEnv, hj, hc, JNI_OK, JNI_EDETACHED, JNI_EVERSION]

theorem GetJNIEnv_attach_ok (h : Host) (t : ThreadId) (w : World) (vm : JavaVM) (e : JNIEnv)
    (hj : w.g_jvm = some vm) (hc : w.threadCtx t = ThreadCtx.detached)
    (ha : h.attachOk (w.log (Event.GetEnv t)) t = some e) :
    GetJNIEnv h t w =
      (some e, { (w.log (Event.GetEnv t)).log (Event.AttachCurrentThread t) with
                 threads := (t, ThreadCtx.attached e) :: w.threads }) := by
  simp [GetJNIEnv, GetEnv, AttachCurrentThread, hj, hc, ha, JNI_OK, JNI_EDETACHED]

theorem GetJNIEnv_attach_fail (h : Host) (t : ThreadId) (w : World) (vm : JavaVM)
    (hj : w.g_jvm = some vm) (hc : w.threadCtx t = ThreadCtx.detached)
    (ha : h.attachOk (w.log (Event.GetEnv t)) t = none) :
    GetJNIEnv h t w =
      (none, (w.log (Event.GetEnv t)).log (Event.AttachCurrentThread t)) := by
  simp [GetJNIEnv, GetEnv, AttachCurrentThread, hj, hc, ha, JNI_OK, JNI_EDETACHED, JNI_ERR]

/-- What `GetJNIEnv` leaves alone: the cached handles, the reference tables, the
character buffers and the record of router invocations. -/
theorem GetJNIEnv_frame (h : Host) (t : ThreadId) (w : World) :
    (GetJNIEnv h t w).2.g_jvm = w.g_jvm ∧
    (GetJNIEnv h t w).2.g_bridgeRouterClass = w.g_bridgeRouterClass ∧
    (GetJNIEnv h t w).2.g_nativePHPCanMethod = w.g_nativePHPCanMethod ∧
    (GetJNIEnv h t w).2.g_nativePHPCallMethod = w.g_nativePHPCallMethod ∧
    (GetJNIEnv h t w).2.locals = w.locals ∧
    (GetJNIEnv h t w).2.globals = w.globals ∧
    (GetJNIEnv h t w).2.pinned = w.pinned ∧
    (GetJNIEnv h t w).2.fresh = w.fresh ∧
    hostInvocations (GetJNIEnv h t w).2.trace = hostInvocations w.trace := by
  cases hj : w.g_jvm with
  | none => simp [GetJNIEnv_no_jvm h t w hj, hj]
  | some vm =>
    cases hc : w.threadCtx t with
    | attached e =>
      simp [GetJNIEnv_attached h t w vm e hj hc, hj, hostInvocations, Event.isInvoke]
    | detached =>
      cases ha : h.attachOk (w.log (Event.GetEnv t)) t with
      | none =>
        simp [GetJNIEnv_attach_fail h t w vm hj hc ha, hj, hostInvocations, Event.isInvoke]
      | some e =>
        simp [GetJNIEnv_attach_ok h t w vm e hj hc ha, hj, hostInvocations, Event.isInvoke]
    | unsupported =>
      simp [GetJNIEnv_unsupported h t w vm hj hc, hj, hostInvocations, Event.isInvoke]

/-- The shape of a successful `NewStringUTF`. -/
theorem NewStringUTF_some (h : Host) (s : String) (w w1 : World) (r : Ref)
    (hs : NewStringUTF h s w = (some r, w1)) :
    r = w.fresh ∧
    w1 = { w.log (Event.NewStringUTF s) with
           locals := (w.fresh, JObject.str s) :: w.locals, fresh := w.fresh + 1 } := by
  unfold NewStringUTF at hs
  cases hok : h.newStringOk w s <;> simp [hok, World.newLocal] at hs
  obtain ⟨h1, h2⟩ := hs
  exact ⟨h1.symm, h2.symm⟩

/-- The shape of a failed `NewStringUTF`. -/
theorem NewStringUTF_none (h : Host) (s : String) (w w1 : World)
    (hs : NewStringUTF h s w = (none, w1)) :
    w1 = w.log (Event.NewStringUTF s) := by
  unfold NewStringUTF at hs
  cases hok : h.newStringOk w s <;> simp [hok, World.newLocal] at hs
  exact hs.symm


/-- After a successful `GetJNIEnv` the world differs from the one before only in
thread bookkeeping. -/
theorem GetJNIEnv_frame_of_eq (h : Host) (t : ThreadId) (w w1 : World) (r : Option JNIEnv)
    (hEnv : GetJNIEnv h t w = (r, w1)) :
    w1.g_bridgeRouterClass = w.g_bridgeRouterClass ∧
    w1.g_nativePHPCanMethod = w.g_nativePHPCanMethod ∧
    w1.g_nativePHPCallMethod = w.g_nativePHPCallMethod ∧
    w1.locals = w.locals ∧ w1.globals = w.globals ∧ w1.pinned = w.pinned ∧
    hostInvocations w1.trace = hostInvocations w.trace := by
  have hf := GetJNIEnv_frame h t w
  rw [hEnv] at hf
  exact ⟨hf.2.1, hf.2.2.1, hf.2.2.2.1, hf.2.2.2.2.1, hf.2.2.2.2.2.1, hf.2.2.2.2.2.2.1,
    hf.2.2.2.2.2.2.2.2⟩

/-- The run of `NativePHPCan` once a context is there and the name is marshalled. -/
theorem NativePHPCan_run (h : Host) (t : ThreadId) (fname : String) (w w1 w2 : World)
    (env : JNIEnv) (r1 : Ref)
    (hEnv : GetJNIEnv h t w = (some env, w1))
    (hName : NewStringUTF h fname w1 = (some r1, w2)) :
    NativePHPCan h t (some fname) w =
      (h.callStaticInt w2 w.g_bridgeRouterClass w.g_nativePHPCanMethod
          (JValue.obj (JObject.str fname)),
       DeleteLocalRef r1 (w2.log (Event.CallStaticIntMethod w.g_bridgeRouterClass
          w.g_nativePHPCanMethod (JValue.obj (JObject.str fname))))) := by
  obtain ⟨hc, hm, -, -, -, -, -⟩ := GetJNIEnv_frame_of_eq h t w w1 _ hEnv
  obtain ⟨hr, hw2⟩ := NewStringUTF_some h fname w1 w2 r1 hName
  have hres : w2.resolveLocal (some r1) = JValue.obj (JObject.str fname) := by
    subst hr; subst hw2; simp [World.resolveLocal]
  have hc2 : w2.g_bridgeRouterClass = w.g_bridgeRouterClass := by subst hw2; simpa using hc
  have hm2 : w2.g_nativePHPCanMethod = w.g_nativePHPCanMethod := by subst hw2; simpa using hm
  simp [NativePHPCan, hEnv, hName, CallStaticIntMethod, hres, hc2, hm2]


/-- The two ways `marshalParameters` can hand over a reference. -/
theorem marshalParameters_some (h : Host) (params : Option String) (w w3 : World)
    (jp : Option Ref) (hPar : marshalParameters h params w = (some jp, w3)) :
    (params = none ∧ jp = none ∧ w3 = w) ∨
    (∃ p, params = some p ∧ jp = some w.fresh ∧
      w3 = { w.log (Event.NewStringUTF p) with
             locals := (w.fresh, JObject.str p) :: w.locals, fresh := w.fresh + 1 }) := by
  cases params with
  | none =>
    left
    simp [marshalParameters] at hPar
    exact ⟨rfl, hPar.1.symm, hPar.2.symm⟩
  | some p =>
    right
    refine ⟨p, rfl, ?_⟩
    unfold marshalParameters at hPar
    cases hn : NewStringUTF h p w with
    | mk r wn =>
      cases r with
      | none => simp [hn] at hPar
      | some r =>
        simp [hn] at hPar
        obtain ⟨hr, hw⟩ := NewStringUTF_some h p w wn r hn
        rw [← hPar.1, ← hPar.2, hr, hw]
        simp

/-- What the router is handed once name and parameters are marshalled: the name as a
live string, and for the parameters either the null reference or a live string with
the same text. -/
theorem marshalled_arguments (h : Host) (fname : String) (params : Option String)
    (w1 w2 w3 : World) (r1 : Ref) (jp : Option Ref)
    (hName : NewStringUTF h fname w1 = (some r1, w2))
    (hPar : marshalParameters h params w2 = (some jp, w3)) :
    w3.resolveLocal (some r1) = JValue.obj (JObject.str fname) ∧
    w3.resolveLocal jp = parametersValue params := by
  obtain ⟨hr1, hw2⟩ := NewStringUTF_some h fname w1 w2 r1 hName
  rcases marshalParameters_some h params w2 w3 jp hPar with ⟨hp, hj, e⟩ | ⟨p, hp, hj, e⟩
  · subst hp; subst hj; subst e; subst hr1; subst hw2
    simp [World.resolveLocal, parametersValue]
  · subst hp; subst hj; subst e; subst hr1; subst hw2
    simp [World.resolveLocal, assocGet, parametersValue]

/-- The run of `NativePHPCall` from the router invocation on, once a context is
there and both arguments are marshalled. -/
theorem NativePHPCall_run (h : Host) (t : ThreadId) (fname : String) (params : Option String)
    (w w1 w2 w3 : World) (env : JNIEnv) (r1 : Ref) (jp : Option Ref)
    (hEnv : GetJNIEnv h t w = (some env, w1))
    (hName : NewStringUTF h fname w1 = (some r1, w2))
    (hPar : marshalParameters h params w2 = (some jp, w3)) :
    NativePHPCall h t (some fname) params w =
      (match h.callStaticObject w3 w.g_bridgeRouterClass w.g_nativePHPCallMethod
          (JValue.obj (JObject.str fname)) (parametersValue params) with
       | none =>
         (none, releaseArguments r1 jp
           (w3.log (Event.CallStaticObjectMethod w.g_bridgeRouterClass w.g_nativePHPCallMethod
             (JValue.obj (JObject.str fname)) (parametersValue params))))
       | some s =>
         copyResult h w3.fresh (releaseArguments r1 jp
           { w3.log (Event.CallStaticObjectMethod w.g_bridgeRouterClass w.g_nativePHPCallMethod
               (JValue.obj (JObject.str fname)) (parametersValue params)) with
             locals := (w3.fresh, JObject.str s) :: w3.locals, fresh := w3.fresh + 1 })) := by
  obtain ⟨hc, -, hm, -, -, -, -⟩ := GetJNIEnv_frame_of_eq h t w w1 _ hEnv
  obtain ⟨ha1, ha2⟩ := marshalled_arguments h fname params w1 w2 w3 r1 jp hName hPar
  obtain ⟨-, hw2⟩ := NewStringUTF_some h fname w1 w2 r1 hName
  have hc3 : w3.g_bridgeRouterClass = w.g_bridgeRouterClass := by
    rcases marshalParameters_some h params w2 w3 jp hPar with ⟨-, -, e⟩ | ⟨p, -, -, e⟩ <;>
      subst e <;> subst hw2 <;> simpa using hc
  have hm3 : w3.g_nativePHPCallMethod = w.g_nativePHPCallMethod := by
    rcases marshalParameters_some h params w2 w3 jp hPar with ⟨-, -, e⟩ | ⟨p, -, -, e⟩ <;>
      subst e <;> subst hw2 <;> simpa using hm
  simp only [NativePHPCall, hEnv, hName, hPar, hc3, hm3, CallStaticObjectMethod, ha1, ha2]
  cases h.callStaticObject w3 w.g_bridgeRouterClass w.g_nativePHPCallMethod
      (JValue.obj (JObject.str fname)) (parametersValue params) <;> rfl

/-- The trace left by the release of the two argument references. -/
theorem releaseArguments_trace (r1 : Ref) (jp : Option Ref) (w : World) :
    (releaseArguments r1 jp w).trace =
      w.trace ++ Event.DeleteLocalRef r1 :: (jp.map Event.DeleteLocalRef).toList := by
  cases jp <;> simp [releaseArguments, DeleteLocalRef]

/-- Releasing the arguments touches nothing but the local references and the trace. -/
theorem releaseArguments_frame (r1 : Ref) (jp : Option Ref) (w : World) :
    (releaseArguments r1 jp w).pinned = w.pinned ∧
    (releaseArguments r1 jp w).globals = w.globals ∧
    (releaseArguments r1 jp w).fresh = w.fresh ∧
    (releaseArguments r1 jp w).threads = w.threads := by
  cases jp <;> simp [releaseArguments, DeleteLocalRef]

/-- Erasing a key passes over newer entries stored under other keys. -/
theorem assocErase_append {α : Type} (k : Nat) (extra l : List (Nat × α)) (v : α)
    (hk : ∀ p ∈ extra, p.1 ≠ k) :
    assocErase k (extra ++ (k, v) :: l) = extra ++ l := by
  induction extra with
  | nil => simp
  | cons x xs ih =>
    obtain ⟨a, b⟩ := x
    have hne : a ≠ k := hk (a, b) (by simp)
    have hrest : ∀ p ∈ xs, p.1 ≠ k := fun p hp => hk p (by simp [hp])
    simp only [List.cons_append]
    rw [assocErase_cons_ne _ _ _ _ hne, ih hrest]

/-- Looking up a key passes over newer entries stored under other keys. -/
theorem assocGet_append {α : Type} (k : Nat) (extra l : List (Nat × α))
    (hk : ∀ p ∈ extra, p.1 ≠ k) :
    assocGet k (extra ++ l) = assocGet k l := by
  induction extra with
  | nil => simp
  | cons x xs ih =>
    obtain ⟨a, b⟩ := x
    have hne : a ≠ k := hk (a, b) (by simp)
    have hrest : ∀ p ∈ xs, p.1 ≠ k := fun p hp => hk p (by simp [hp])
    simp only [List.cons_append]
    rw [assocGet_cons_ne _ _ _ _ hne, ih hrest]

/-- Once both arguments are released, the local references are those from before the
name was marshalled, plus whatever was created after the parameters. -/
theorem releaseArguments_locals (h : Host) (fname : String) (params : Option String)
    (w1 w2 w3 w4 : World) (r1 : Ref) (jp : Option Ref) (extra : List (Ref × JObject))
    (hName : NewStringUTF h fname w1 = (some r1, w2))
    (hPar : marshalParameters h params w2 = (some jp, w3))
    (hx : ∀ p ∈ extra, w3.fresh ≤ p.1)
    (hl : w4.locals = extra ++ w3.locals) :
    (releaseArguments r1 jp w4).locals = extra ++ w1.locals := by
  obtain ⟨hr1, hw2⟩ := NewStringUTF_some h fname w1 w2 r1 hName
  rcases marshalParameters_some h params w2 w3 jp hPar with ⟨hp, hj, e⟩ | ⟨p, hp, hj, e⟩
  · subst hp; subst hj; subst e; subst hr1; subst hw2
    have hk : ∀ p ∈ extra, p.1 ≠ w1.fresh := by
      intro p hp
      have := hx p hp
      simp at this
      exact Nat.ne_of_gt (by omega)
    simp only [releaseArguments, DeleteLocalRef, log_locals, hl]
    exact assocErase_append _ _ _ _ hk
  · subst hp; subst hj; subst e; subst hr1; subst hw2
    have hk1 : ∀ q ∈ extra, q.1 ≠ w1.fresh + 1 := by
      intro q hq
      have := hx q hq
      simp at this
      exact Nat.ne_of_gt (by omega)
    have hk0 : ∀ q ∈ extra ++ [(w1.fresh + 1, JObject.str p)], q.1 ≠ w1.fresh := by
      intro q hq
      rcases List.mem_append.1 hq with hq | hq
      · have := hx q hq
        simp at this
        exact Nat.ne_of_gt (by omega)
      · simp at hq
        subst hq
        simp
    simp only [releaseArguments, DeleteLocalRef, log_locals, hl]
    have e1 : assocErase w1.fresh
        (extra ++ (w1.fresh + 1, JObject.str p) :: (w1.fresh, JObject.str fname) :: w1.locals)
        = extra ++ (w1.fresh + 1, JObject.str p) :: w1.locals := by
      have := assocErase_append w1.fresh (extra ++ [(w1.fresh + 1, JObject.str p)])
        w1.locals (JObject.str fname) hk0
      simpa using this
    simp only [log_fresh, log_locals] at e1 ⊢
    rw [e1]
    exact assocErase_append _ _ _ _ hk1


/-- The outcome of `GetStringUTFChars`, according to the object behind the reference
and the decision of the machine. -/
theorem GetStringUTFChars_eq (h : Host) (res : Ref) (w : World) :
    GetStringUTFChars h res w =
      (match assocGet res w.locals with
       | some (JObject.str s) =>
         if h.utfCharsOk w s then
           (some w.fresh, { w.log (Event.GetStringUTFChars res) with
                            pinned := (w.fresh, s) :: w.pinned, fresh := w.fresh + 1 })
         else (none, w.log (Event.GetStringUTFChars res))
       | _ => (none, w.log (Event.GetStringUTFChars res))) := by
  unfold GetStringUTFChars
  rfl

/-- The run of `copyResult` when the characters of the result can be had: `strdup`
reads them while they are pinned, then characters and reference are released. -/
theorem copyResult_ok (h : Host) (res : Ref) (w : World) (s : String)
    (hl : assocGet res w.locals = some (JObject.str s))
    (hc : h.utfCharsOk w s = true) :
    copyResult h res w =
      ((if h.strdupOk { w.log (Event.GetStringUTFChars res) with
                        pinned := (w.fresh, s) :: w.pinned, fresh := w.fresh + 1 } s
          then some s else none),
       { w with
         locals := assocErase res w.locals
         fresh := w.fresh + 1
         trace := w.trace ++ [Event.GetStringUTFChars res, Event.strdup w.fresh,
           Event.ReleaseStringUTFChars res w.fresh, Event.DeleteLocalRef res] }) := by
  have hg : GetStringUTFChars h res w =
      (some w.fresh, { w.log (Event.GetStringUTFChars res) with
                       pinned := (w.fresh, s) :: w.pinned, fresh := w.fresh + 1 }) := by
    rw [GetStringUTFChars_eq]
    simp [hl, hc]
  simp only [copyResult, hg, strdup, assocGet_cons_self]
  split <;> simp [ReleaseStringUTFChars, DeleteLocalRef, World.log]

/-- When the characters of the result cannot be had, only the reference is released. -/
theorem copyResult_fail (h : Host) (res : Ref) (w : World) (s : String)
    (hl : assocGet res w.locals = some (JObject.str s))
    (hc : h.utfCharsOk w s = false) :
    copyResult h res w =
      (none, { w with
               locals := assocErase res w.locals
               trace := w.trace ++ [Event.GetStringUTFChars res, Event.DeleteLocalRef res] }) := by
  have hg : GetStringUTFChars h res w = (none, w.log (Event.GetStringUTFChars res)) := by
    rw [GetStringUTFChars_eq]
    simp [hl, hc]
  simp [copyResult, hg, DeleteLocalRef, World.log]

/-- Whatever happens in `copyResult`, the result reference is released, no character
buffer stays pinned, and no router entry point is invoked. -/
theorem copyResult_frame (h : Host) (res : Ref) (w : World) :
    (copyResult h res w).2.locals = assocErase res w.locals ∧
    (copyResult h res w).2.pinned = w.pinned ∧
    (copyResult h res w).2.globals = w.globals ∧
    (copyResult h res w).2.threads = w.threads ∧
    hostInvocations (copyResult h res w).2.trace = hostInvocations w.trace := by
  have hnone : GetStringUTFChars h res w = (none, w.log (Event.GetStringUTFChars res)) →
      (copyResult h res w).2.locals = assocErase res w.locals ∧
      (copyResult h res w).2.pinned = w.pinned ∧
      (copyResult h res w).2.globals = w.globals ∧
      (copyResult h res w).2.threads = w.threads ∧
      hostInvocations (copyResult h res w).2.trace = hostInvocations w.trace := by
    intro hg
    simp [copyResult, hg, DeleteLocalRef, hostInvocations, Event.isInvoke]
  cases hl : assocGet res w.locals with
  | none => exact hnone (by rw [GetStringUTFChars_eq]; simp [hl])
  | some o =>
    cases o with
    | cls n => exact hnone (by rw [GetStringUTFChars_eq]; simp [hl])
    | str s =>
      cases hc : h.utfCharsOk w s with
      | false => exact hnone (by rw [GetStringUTFChars_eq]; simp [hl, hc])
      | true =>
        rw [copyResult_ok h res w s hl hc]
        simp [hostInvocations, Event.isInvoke]


/-! ## The claims -/

/-- The calls stop at the first failed step: sentinel returned, router not invoked. -/
theorem failed_step_terminal_aux (h : Host) (t : ThreadId)
    (functionName parametersJSON : Option String) (w : World)
    (hFail : functionName = none ∨ (GetJNIEnv h t w).1 = none ∨
      ∃ fname, functionName = some fname ∧
        (NewStringUTF h fname (GetJNIEnv h t w).2).1 = none) :
    (NativePHPCall h t functionName parametersJSON w).1 = none ∧
    (NativePHPCan h t functionName w).1 = 0 ∧
    hostInvocations (NativePHPCall h t functionName parametersJSON w).2.trace
      = hostInvocations w.trace ∧
    hostInvocations (NativePHPCan h t functionName w).2.trace = hostInvocations w.trace := by
  have hinv := (GetJNIEnv_frame h t w).2.2.2.2.2.2.2.2
  cases functionName with
  | none => simp [NativePHPCall, NativePHPCan]
  | some fname =>
    cases hEnv : GetJNIEnv h t w with
    | mk e w1 =>
      rw [hEnv] at hinv
      cases e with
      | none => simp [NativePHPCall, NativePHPCan, hEnv, hinv]
      | some env =>
        cases hName : NewStringUTF h fname w1 with
        | mk r w2 =>
          cases r with
          | none =>
            have hw2 := NewStringUTF_none h fname w1 w2 hName
            subst hw2
            simp only [NativePHPCall, NativePHPCan, hEnv, hName, log_trace]
            simp [hostInvocations, Event.isInvoke]
            simpa [hostInvocations] using hinv
          | some r1 =>
            rcases hFail with hf | hf | ⟨f, hf1, hf2⟩
            · simp at hf
            · simp [hEnv] at hf
            · simp only [Option.some.injEq] at hf1
              subst hf1
              simp [hEnv, hName] at hf2

/-- C6. A failed step is terminal and yields the sentinel: when `functionName` is
null, when `GetJNIEnv` fails, or when the name cannot be marshalled, `NativePHPCall`
returns null and `NativePHPCan` returns 0, and neither invokes a router entry point. -/
theorem failed_step_is_terminal (h : Host) (t : ThreadId)
    (functionName parametersJSON : Option String) (w : World)
    (hFail : functionName = none ∨ (GetJNIEnv h t w).1 = none ∨
      ∃ fname, functionName = some fname ∧
        (NewStringUTF h fname (GetJNIEnv h t w).2).1 = none) :
    (NativePHPCall h t functionName parametersJSON w).1 = none ∧
    (NativePHPCan h t functionName w).1 = 0 ∧
    hostInvocations (NativePHPCall h t functionName parametersJSON w).2.trace
      = hostInvocations w.trace ∧
    hostInvocations (NativePHPCan h t functionName w).2.trace = hostInvocations w.trace :=
  failed_step_terminal_aux h t functionName parametersJSON w hFail

/-- Instances of C6: a null name, an unset `g_jvm`, and a machine that cannot create
the name string. -/
theorem failed_step_is_terminal_witness :
    ((NativePHPCall echoHost 0 none (some "x") readyWorld).1 = none ∧
      (NativePHPCan echoHost 0 none readyWorld).1 = 0 ∧
      hostInvocations (NativePHPCall echoHost 0 none (some "x") readyWorld).2.trace
        = hostInvocations readyWorld.trace ∧
      hostInvocations (NativePHPCan echoHost 0 none readyWorld).2.trace
        = hostInvocations readyWorld.trace) ∧
    ((NativePHPCall echoHost 0 (some "Location.Get") none { readyWorld with g_jvm := none }).1
        = none ∧
      (NativePHPCan echoHost 0 (some "Location.Get") { readyWorld with g_jvm := none }).1 = 0 ∧
      hostInvocations (NativePHPCall echoHost 0 (some "Location.Get") none
          { readyWorld with g_jvm := none }).2.trace
        = hostInvocations ({ readyWorld with g_jvm := none } : World).trace ∧
      hostInvocations (NativePHPCan echoHost 0 (some "Location.Get")
          { readyWorld with g_jvm := none }).2.trace
        = hostInvocations ({ readyWorld with g_jvm := none } : World).trace) ∧
    ((NativePHPCall noStringHost 0 (some "Location.Get") none readyWorld).1 = none ∧
      (NativePHPCan noStringHost 0 (some "Location.Get") readyWorld).1 = 0 ∧
      hostInvocations (NativePHPCall noStringHost 0 (some "Location.Get") none readyWorld).2.trace
        = hostInvocations readyWorld.trace ∧
      hostInvocations (NativePHPCan noStringHost 0 (some "Location.Get") readyWorld).2.trace
        = hostInvocations readyWorld.trace) :=
  ⟨failed_step_is_terminal echoHost 0 none (some "x") readyWorld (Or.inl rfl),
   failed_step_is_terminal echoHost 0 (some "Location.Get") none { readyWorld with g_jvm := none }
     (Or.inr (Or.inl rfl)),
   failed_step_is_terminal noStringHost 0 (some "Location.Get") none readyWorld
     (Or.inr (Or.inr ⟨"Location.Get", rfl, rfl⟩))⟩

/-- C2, as amended. Once a context is there and the name is marshalled, `NativePHPCan`
returns the integer `r` of the existence check as it is, without normalising it: 0
for 0, 1 for 1, and `r` for any other value; so it returns 0 or 1 whenever the router
answers 0 or 1. -/
theorem NativePHPCan_returns_host_integer (h : Host) (t : ThreadId) (fname : String)
    (w w1 w2 : World) (env : JNIEnv) (r1 : Ref) (r : Int)
    (hEnv : GetJNIEnv h t w = (some env, w1))
    (hName : NewStringUTF h fname w1 = (some r1, w2))
    (hr : h.callStaticInt w2 w.g_bridgeRouterClass w.g_nativePHPCanMethod
      (JValue.obj (JObject.str fname)) = r) :
    (NativePHPCan h t (some fname) w).1 = r ∧
    (r = 0 ∨ r = 1 →
      (NativePHPCan h t (some fname) w).1 = 0 ∨ (NativePHPCan h t (some fname) w).1 = 1) := by
  have hrun := NativePHPCan_run h t fname w w1 w2 env r1 hEnv hName
  have h1 : (NativePHPCan h t (some fname) w).1 = r := by rw [hrun]; exact hr
  exact ⟨h1, fun h01 => by rw [h1]; exact h01⟩

/-- An instance of C2 as amended: the router knows `Location.Get` and answers 1. -/
theorem NativePHPCan_returns_host_integer_witness :
    (NativePHPCan echoHost 0 (some "Location.Get") readyWorld).1 = 1 :=
  (NativePHPCan_returns_host_integer echoHost 0 "Location.Get" readyWorld
    (GetJNIEnv echoHost 0 readyWorld).2
    (NewStringUTF echoHost "Location.Get" (GetJNIEnv echoHost 0 readyWorld).2).2
    7 102 1 rfl rfl rfl).1

/-- C2 fails as stated: with a context, a marshalled name and a router that answers
the nonzero integer 2, `NativePHPCan` returns 2, not 1. -/
theorem NativePHPCan_not_normalised :
    (GetJNIEnv twoHost 0 readyWorld).1 = some 7 ∧
    (NewStringUTF twoHost "Location.Get" (GetJNIEnv twoHost 0 readyWorld).2).1 = some 102 ∧
    twoHost.callStaticInt
      (NewStringUTF twoHost "Location.Get" (GetJNIEnv twoHost 0 readyWorld).2).2
      readyWorld.g_bridgeRouterClass readyWorld.g_nativePHPCanMethod
      (JValue.obj (JObject.str "Location.Get")) = 2 ∧
    (NativePHPCan twoHost 0 (some "Location.Get") readyWorld).1 = 2 ∧
    (NativePHPCan twoHost 0 (some "Location.Get") readyWorld).1 ≠ 1 := by
  refine ⟨rfl, rfl, rfl, rfl, ?_⟩
  decide


/-- The router invocations recorded by `NativePHPCall` after successful marshalling:
exactly one is added, with the name and the marshalled parameters. -/
theorem NativePHPCall_invocations (h : Host) (t : ThreadId) (fname : String)
    (params : Option String) (w w1 w2 w3 : World) (env : JNIEnv) (r1 : Ref) (jp : Option Ref)
    (hEnv : GetJNIEnv h t w = (some env, w1))
    (hName : NewStringUTF h fname w1 = (some r1, w2))
    (hPar : marshalParameters h params w2 = (some jp, w3)) :
    hostInvocations (NativePHPCall h t (some fname) params w).2.trace =
      hostInvocations w.trace ++
        [Event.CallStaticObjectMethod w.g_bridgeRouterClass w.g_nativePHPCallMethod
          (JValue.obj (JObject.str fname)) (parametersValue params)] := by
  obtain ⟨-, -, -, -, -, -, hinv⟩ := GetJNIEnv_frame_of_eq h t w w1 _ hEnv
  have hinv3 : hostInvocations w3.trace = hostInvocations w.trace := by
    obtain ⟨-, hw2⟩ := NewStringUTF_some h fname w1 w2 r1 hName
    rcases marshalParameters_some h params w2 w3 jp hPar with ⟨-, -, e⟩ | ⟨p, -, -, e⟩ <;>
      subst e <;> subst hw2 <;>
      simpa [hostInvocations, Event.isInvoke] using hinv
  have hrel : ∀ x : World, hostInvocations (releaseArguments r1 jp x).trace
      = hostInvocations x.trace := by
    intro x
    rw [releaseArguments_trace]
    cases jp <;> simp [hostInvocations, Event.isInvoke]
  rw [NativePHPCall_run h t fname params w w1 w2 w3 env r1 jp hEnv hName hPar]
  cases h.callStaticObject w3 w.g_bridgeRouterClass w.g_nativePHPCallMethod
      (JValue.obj (JObject.str fname)) (parametersValue params) with
  | none =>
    simp only [hrel, log_trace]
    simp [hostInvocations, Event.isInvoke] at hinv3 ⊢
    exact hinv3
  | some s =>
    simp only [(copyResult_frame h _ _).2.2.2.2, hrel, log_trace]
    simp [hostInvocations, Event.isInvoke] at hinv3 ⊢
    exact hinv3

/-- A successful `marshalParameters` for present parameters is a successful
`NewStringUTF`. -/
theorem marshalParameters_present (h : Host) (p : String) (w w3 : World) (r2 : Ref)
    (hPar : NewStringUTF h p w = (some r2, w3)) :
    marshalParameters h (some p) w = (some (some r2), w3) := by
  simp [marshalParameters, hPar]

/-- C3. Once a context is there and the name is marshalled: for null `parametersJSON`
the router is invoked with the null reference as second argument; for present
parameters `p` (the empty string included) it is invoked with a live string whose text
is `p`.  So the router sees `invoke(name, null)` and `invoke(name, "")` as different
calls, and absent parameters never arrive as an empty string. -/
theorem parameters_null_or_same_text (h : Host) (t : ThreadId) (fname : String)
    (w w1 w2 : World) (env : JNIEnv) (r1 : Ref)
    (hEnv : GetJNIEnv h t w = (some env, w1))
    (hName : NewStringUTF h fname w1 = (some r1, w2)) :
    hostInvocations (NativePHPCall h t (some fname) none w).2.trace =
      hostInvocations w.trace ++
        [Event.CallStaticObjectMethod w.g_bridgeRouterClass w.g_nativePHPCallMethod
          (JValue.obj (JObject.str fname)) JValue.null] ∧
    (∀ (p : String) (r2 : Ref) (w3 : World), NewStringUTF h p w2 = (some r2, w3) →
      assocGet r2 w3.locals = some (JObject.str p) ∧
      hostInvocations (NativePHPCall h t (some fname) (some p) w).2.trace =
        hostInvocations w.trace ++
          [Event.CallStaticObjectMethod w.g_bridgeRouterClass w.g_nativePHPCallMethod
            (JValue.obj (JObject.str fname)) (JValue.obj (JObject.str p))]) ∧
    (∀ (r2 : Ref) (w3 : World), NewStringUTF h "" w2 = (some r2, w3) →
      hostInvocations (NativePHPCall h t (some fname) none w).2.trace ≠
        hostInvocations (NativePHPCall h t (some fname) (some "") w).2.trace) := by
  have hnone := NativePHPCall_invocations h t fname none w w1 w2 w2 env r1 none hEnv hName rfl
  have hsome : ∀ (p : String) (r2 : Ref) (w3 : World), NewStringUTF h p w2 = (some r2, w3) →
      hostInvocations (NativePHPCall h t (some fname) (some p) w).2.trace =
        hostInvocations w.trace ++
          [Event.CallStaticObjectMethod w.g_bridgeRouterClass w.g_nativePHPCallMethod
            (JValue.obj (JObject.str fname)) (JValue.obj (JObject.str p))] := fun p r2 w3 hp =>
    NativePHPCall_invocations h t fname (some p) w w1 w2 w3 env r1 (some r2) hEnv hName
      (marshalParameters_present h p w2 w3 r2 hp)
  refine ⟨hnone, ?_, ?_⟩
  · intro p r2 w3 hp
    refine ⟨?_, hsome p r2 w3 hp⟩
    obtain ⟨hr, hw⟩ := NewStringUTF_some h p w2 w3 r2 hp
    subst hr; subst hw
    simp
  · intro r2 w3 hp
    rw [hnone, hsome "" r2 w3 hp]
    simp [parametersValue]

/-- An instance of C3: `invoke("Echo.Identity", null)` and `invoke("Echo.Identity", "")`
reach the router with different second arguments. -/
theorem parameters_null_or_same_text_witness :
    hostInvocations (NativePHPCall echoHost 0 (some "Echo.Identity") none readyWorld).2.trace =
      hostInvocations readyWorld.trace ++
        [Event.CallStaticObjectMethod readyWorld.g_bridgeRouterClass
          readyWorld.g_nativePHPCallMethod
          (JValue.obj (JObject.str "Echo.Identity")) JValue.null] ∧
    hostInvocations (NativePHPCall echoHost 0 (some "Echo.Identity") (some "") readyWorld).2.trace =
      hostInvocations readyWorld.trace ++
        [Event.CallStaticObjectMethod readyWorld.g_bridgeRouterClass
          readyWorld.g_nativePHPCallMethod
          (JValue.obj (JObject.str "Echo.Identity")) (JValue.obj (JObject.str ""))] :=
  ⟨(parameters_null_or_same_text echoHost 0 "Echo.Identity" readyWorld
      (GetJNIEnv echoHost 0 readyWorld).2
      (NewStringUTF echoHost "Echo.Identity" (GetJNIEnv echoHost 0 readyWorld).2).2
      7 102 rfl rfl).1,
   ((parameters_null_or_same_text echoHost 0 "Echo.Identity" readyWorld
      (GetJNIEnv echoHost 0 readyWorld).2
      (NewStringUTF echoHost "Echo.Identity" (GetJNIEnv echoHost 0 readyWorld).2).2
      7 102 rfl rfl).2.1 "" 103
      (NewStringUTF echoHost ""
        (NewStringUTF echoHost "Echo.Identity" (GetJNIEnv echoHost 0 readyWorld).2).2).2
      rfl).2⟩


/-- The world in which the result of the router is converted, when the router
answered the string `s`: the result holds the newest local reference and both
arguments are released. -/
theorem result_is_live (h : Host) (fname : String) (params : Option String)
    (w1 w2 w3 w4 : World) (r1 : Ref) (jp : Option Ref) (s : String)
    (hName : NewStringUTF h fname w1 = (some r1, w2))
    (hPar : marshalParameters h params w2 = (some jp, w3))
    (hl : w4.locals = (w3.fresh, JObject.str s) :: w3.locals) :
    (releaseArguments r1 jp w4).locals = (w3.fresh, JObject.str s) :: w1.locals := by
  have := releaseArguments_locals h fname params w1 w2 w3 w4 r1 jp
    [(w3.fresh, JObject.str s)] hName hPar (by simp) (by simpa using hl)
  simpa using this

/-- C4. Round trip through an echoing router: if the invoke entry point returns its
parameters argument unchanged, then, with a context, both arguments marshalled, and
the conversion and the copy of the result succeeding, `NativePHPCall(name, p)`
returns a buffer whose text is exactly `p`. -/
theorem echo_round_trip (h : Host) (t : ThreadId) (fname p : String)
    (w w1 w2 w3 : World) (env : JNIEnv) (r1 r2 : Ref)
    (hEnv : GetJNIEnv h t w = (some env, w1))
    (hName : NewStringUTF h fname w1 = (some r1, w2))
    (hPar : NewStringUTF h p w2 = (some r2, w3))
    (hEcho : ∀ (x : World) (c : Option Ref) (m : Option MethodID) (a : JValue) (s : String),
      h.callStaticObject x c m a (JValue.obj (JObject.str s)) = some s)
    (hChars : ∀ (x : World) (s : String), h.utfCharsOk x s = true)
    (hDup : ∀ (x : World) (s : String), h.strdupOk x s = true) :
    (NativePHPCall h t (some fname) (some p) w).1 = some p := by
  have hPar2 := marshalParameters_present h p w2 w3 r2 hPar
  rw [NativePHPCall_run h t fname (some p) w w1 w2 w3 env r1 (some r2) hEnv hName hPar2]
  simp only [parametersValue, hEcho]
  have hlive := result_is_live h fname (some p) w1 w2 w3
    { w3.log (Event.CallStaticObjectMethod w.g_bridgeRouterClass w.g_nativePHPCallMethod
        (JValue.obj (JObject.str fname)) (JValue.obj (JObject.str p))) with
      locals := (w3.fresh, JObject.str p) :: w3.locals, fresh := w3.fresh + 1 }
    r1 (some r2) p hName hPar2 rfl
  rw [copyResult_ok h w3.fresh _ p (by rw [hlive]; simp) (hChars _ _)]
  simp [hDup]

/-- The round trip of the specification: invoking `Echo.Identity` on the echoing
router with the JSON object that maps `a` to 1 returns the same text. -/
theorem echo_round_trip_witness :
    (NativePHPCall echoHost 0 (some "Echo.Identity") (some "\x7b\"a\":1\x7d") readyWorld).1
      = some "\x7b\"a\":1\x7d" :=
  echo_round_trip echoHost 0 "Echo.Identity" "\x7b\"a\":1\x7d" readyWorld
    (GetJNIEnv echoHost 0 readyWorld).2
    (NewStringUTF echoHost "Echo.Identity" (GetJNIEnv echoHost 0 readyWorld).2).2
    (NewStringUTF echoHost "\x7b\"a\":1\x7d"
      (NewStringUTF echoHost "Echo.Identity" (GetJNIEnv echoHost 0 readyWorld).2).2).2
    7 102 103 rfl rfl rfl
    (fun _ _ _ _ _ => rfl) (fun _ _ => rfl) (fun _ _ => rfl)


/-- The outcome of `CallStaticObjectMethod` on marshalled arguments, by the answer of
the router. -/
theorem CallStaticObjectMethod_marshalled (h : Host) (fname : String) (params : Option String)
    (c : Option Ref) (m : Option MethodID)
    (w1 w2 w3 : World) (r1 : Ref) (jp : Option Ref)
    (hName : NewStringUTF h fname w1 = (some r1, w2))
    (hPar : marshalParameters h params w2 = (some jp, w3)) :
    CallStaticObjectMethod h c m r1 jp w3 =
      (match h.callStaticObject w3 c m (JValue.obj (JObject.str fname))
          (parametersValue params) with
       | none =>
         (none, w3.log (Event.CallStaticObjectMethod c m (JValue.obj (JObject.str fname))
            (parametersValue params)))
       | some s =>
         (some w3.fresh,
          { w3.log (Event.CallStaticObjectMethod c m (JValue.obj (JObject.str fname))
              (parametersValue params)) with
            locals := (w3.fresh, JObject.str s) :: w3.locals, fresh := w3.fresh + 1 })) := by
  obtain ⟨ha1, ha2⟩ := marshalled_arguments h fname params w1 w2 w3 r1 jp hName hPar
  simp only [CallStaticObjectMethod, ha1, ha2]
  cases h.callStaticObject w3 c m (JValue.obj (JObject.str fname)) (parametersValue params) <;> rfl

/-- C5, as amended. Once the router has been invoked: if it yields no result,
`NativePHPCall` returns null; if it yields a string `s`, then `NativePHPCall` returns
null when the characters of `s` cannot be had or the copy cannot be allocated, and
otherwise a buffer with the text of `s`; whenever the characters are had, the copy
(`strdup`) is made after `GetStringUTFChars` and before `ReleaseStringUTFChars` and
`DeleteLocalRef` of the result, so the string is never read after its release. -/
theorem result_copied_before_release (h : Host) (t : ThreadId) (fname : String)
    (params : Option String) (w w1 w2 w3 w4 : World) (env : JNIEnv) (r1 : Ref)
    (jp jResult : Option Ref)
    (hEnv : GetJNIEnv h t w = (some env, w1))
    (hName : NewStringUTF h fname w1 = (some r1, w2))
    (hPar : marshalParameters h params w2 = (some jp, w3))
    (hCall : CallStaticObjectMethod h w.g_bridgeRouterClass w.g_nativePHPCallMethod r1 jp w3
      = (jResult, w4)) :
    (jResult = none → (NativePHPCall h t (some fname) params w).1 = none) ∧
    (∀ (res : Ref) (s : String), jResult = some res →
      assocGet res w4.locals = some (JObject.str s) →
      (h.utfCharsOk (releaseArguments r1 jp w4) s = false →
        (NativePHPCall h t (some fname) params w).1 = none) ∧
      (h.utfCharsOk (releaseArguments r1 jp w4) s = true →
        (h.strdupOk (GetStringUTFChars h res (releaseArguments r1 jp w4)).2 s = true →
          (NativePHPCall h t (some fname) params w).1 = some s) ∧
        (h.strdupOk (GetStringUTFChars h res (releaseArguments r1 jp w4)).2 s = false →
          (NativePHPCall h t (some fname) params w).1 = none) ∧
        (NativePHPCall h t (some fname) params w).2.trace =
          (releaseArguments r1 jp w4).trace ++
            [Event.GetStringUTFChars res, Event.strdup (releaseArguments r1 jp w4).fresh,
             Event.ReleaseStringUTFChars res (releaseArguments r1 jp w4).fresh,
             Event.DeleteLocalRef res])) := by
  have hrun := NativePHPCall_run h t fname params w w1 w2 w3 env r1 jp hEnv hName hPar
  have hcs := CallStaticObjectMethod_marshalled h fname params w.g_bridgeRouterClass
    w.g_nativePHPCallMethod w1 w2 w3 r1 jp hName hPar
  rw [hCall] at hcs
  cases hres : h.callStaticObject w3 w.g_bridgeRouterClass w.g_nativePHPCallMethod
      (JValue.obj (JObject.str fname)) (parametersValue params) with
  | none =>
    rw [hres] at hrun hcs
    simp only [Prod.mk.injEq] at hcs
    obtain ⟨hj, hw4⟩ := hcs
    subst hj
    refine ⟨fun _ => by rw [hrun], ?_⟩
    intro res s hne
    simp at hne
  | some s0 =>
    rw [hres] at hrun hcs
    simp only [Prod.mk.injEq] at hcs
    obtain ⟨hj, hw4⟩ := hcs
    subst hj
    refine ⟨fun hne => by simp at hne, ?_⟩
    intro res s hsome hlive
    simp only [Option.some.injEq] at hsome
    subst hsome
    have hs : s = s0 := by
      rw [hw4] at hlive
      simpa using hlive.symm
    subst hs
    have hlive5 : assocGet w3.fresh (releaseArguments r1 jp w4).locals = some (JObject.str s) := by
      rw [result_is_live h fname params w1 w2 w3 w4 r1 jp s hName hPar (by rw [hw4])]
      simp
    have hrun2 : NativePHPCall h t (some fname) params w =
        copyResult h w3.fresh (releaseArguments r1 jp w4) := by
      rw [hrun, hw4]
    refine ⟨fun hc => ?_, fun hc => ?_⟩
    · rw [hrun2, copyResult_fail h _ _ s hlive5 hc]
    · have hg : GetStringUTFChars h w3.fresh (releaseArguments r1 jp w4) =
          (some (releaseArguments r1 jp w4).fresh,
           { (releaseArguments r1 jp w4).log (Event.GetStringUTFChars w3.fresh) with
             pinned := ((releaseArguments r1 jp w4).fresh, s) :: (releaseArguments r1 jp w4).pinned,
             fresh := (releaseArguments r1 jp w4).fresh + 1 }) := by
        rw [GetStringUTFChars_eq]
        simp [hlive5, hc]
      rw [hrun2, copyResult_ok h _ _ s hlive5 hc, hg]
      refine ⟨fun hd => by simp at hd ⊢; simp [hd], fun hd => by simp at hd ⊢; simp [hd], rfl⟩


/-- An instance of C5 as amended: the echoing router yields the string `x`, its
characters are had and copied, and the copy is the last read of the string. -/
theorem result_copied_before_release_witness :
    (NativePHPCall echoHost 0 (some "Echo.Identity") (some "x") readyWorld).1 = some "x" ∧
    (NativePHPCall echoHost 0 (some "Echo.Identity") (some "x") readyWorld).2.trace =
      (releaseArguments 102 (some 103)
        (CallStaticObjectMethod echoHost readyWorld.g_bridgeRouterClass
          readyWorld.g_nativePHPCallMethod 102 (some 103)
          (NewStringUTF echoHost "x"
            (NewStringUTF echoHost "Echo.Identity"
              (GetJNIEnv echoHost 0 readyWorld).2).2).2).2).trace ++
        [Event.GetStringUTFChars 104, Event.strdup 105,
         Event.ReleaseStringUTFChars 104 105, Event.DeleteLocalRef 104] :=
  ⟨(((result_copied_before_release echoHost 0 "Echo.Identity" (some "x") readyWorld
      (GetJNIEnv echoHost 0 readyWorld).2
      (NewStringUTF echoHost "Echo.Identity" (GetJNIEnv echoHost 0 readyWorld).2).2
      (NewStringUTF echoHost "x"
        (NewStringUTF echoHost "Echo.Identity" (GetJNIEnv echoHost 0 readyWorld).2).2).2
      (CallStaticObjectMethod echoHost readyWorld.g_bridgeRouterClass
        readyWorld.g_nativePHPCallMethod 102 (some 103)
        (NewStringUTF echoHost "x"
          (NewStringUTF echoHost "Echo.Identity"
            (GetJNIEnv echoHost 0 readyWorld).2).2).2).2
      7 102 (some 103) (some 104) rfl rfl rfl rfl).2 104 "x" rfl rfl).2 rfl).1 rfl,
   (((result_copied_before_release echoHost 0 "Echo.Identity" (some "x") readyWorld
      (GetJNIEnv echoHost 0 readyWorld).2
      (NewStringUTF echoHost "Echo.Identity" (GetJNIEnv echoHost 0 readyWorld).2).2
      (NewStringUTF echoHost "x"
        (NewStringUTF echoHost "Echo.Identity" (GetJNIEnv echoHost 0 readyWorld).2).2).2
      (CallStaticObjectMethod echoHost readyWorld.g_bridgeRouterClass
        readyWorld.g_nativePHPCallMethod 102 (some 103)
        (NewStringUTF echoHost "x"
          (NewStringUTF echoHost "Echo.Identity"
            (GetJNIEnv echoHost 0 readyWorld).2).2).2).2
      7 102 (some 103) (some 104) rfl rfl rfl rfl).2 104 "x" rfl rfl).2 rfl).2.2⟩

/-- C5 fails as stated: the router yields the string `x`, the machine refuses its
characters, and `NativePHPCall` returns null although the router yielded a string. -/
theorem conversion_failure_returns_null :
    (CallStaticObjectMethod noCharsHost readyWorld.g_bridgeRouterClass
      readyWorld.g_nativePHPCallMethod 102 (some 103)
      (NewStringUTF noCharsHost "x"
        (NewStringUTF noCharsHost "Echo.Identity"
          (GetJNIEnv noCharsHost 0 readyWorld).2).2).2).1 = some 104 ∧
    assocGet 104
      (CallStaticObjectMethod noCharsHost readyWorld.g_bridgeRouterClass
        readyWorld.g_nativePHPCallMethod 102 (some 103)
        (NewStringUTF noCharsHost "x"
          (NewStringUTF noCharsHost "Echo.Identity"
            (GetJNIEnv noCharsHost 0 readyWorld).2).2).2).2.locals = some (JObject.str "x") ∧
    (NativePHPCall noCharsHost 0 (some "Echo.Identity") (some "x") readyWorld).1 = none :=
  ⟨rfl, rfl, rfl⟩

/-- A failed `marshalParameters` leaves the reference tables alone. -/
theorem marshalParameters_none (h : Host) (params : Option String) (w w3 : World)
    (hPar : marshalParameters h params w = (none, w3)) :
    w3.locals = w.locals ∧ w3.pinned = w.pinned := by
  cases params with
  | none => simp [marshalParameters] at hPar
  | some p =>
    cases hP : NewStringUTF h p w with
    | mk r2 w3b =>
      cases r2 with
      | none =>
        have hw3 := NewStringUTF_none h p w w3b hP
        simp only [marshalParameters, hP, Prod.mk.injEq, true_and] at hPar
        subst hPar; subst hw3
        simp
      | some r2 => simp [marshalParameters, hP] at hPar

/-- The local references after `NativePHPCan`, whatever path it takes. -/
theorem NativePHPCan_locals (h : Host) (t : ThreadId) (fn : Option String) (w : World) :
    (NativePHPCan h t fn w).2.locals = w.locals ∧
    (NativePHPCan h t fn w).2.pinned = w.pinned := by
  cases fn with
  | none => simp [NativePHPCan]
  | some fname =>
    cases hEnv : GetJNIEnv h t w with
    | mk e w1 =>
      obtain ⟨-, -, -, hl, -, hp, -⟩ := GetJNIEnv_frame_of_eq h t w w1 e hEnv
      cases e with
      | none => simp [NativePHPCan, hEnv, hl, hp]
      | some env =>
        cases hName : NewStringUTF h fname w1 with
        | mk r w2 =>
          cases r with
          | none =>
            have hw2 := NewStringUTF_none h fname w1 w2 hName
            subst hw2
            simp [NativePHPCan, hEnv, hName, hl, hp]
          | some r1 =>
            rw [NativePHPCan_run h t fname w w1 w2 env r1 hEnv hName]
            obtain ⟨hr, hw2⟩ := NewStringUTF_some h fname w1 w2 r1 hName
            subst hr; subst hw2
            simp [DeleteLocalRef, hl, hp]

/-- The local references and character buffers after `NativePHPCall`, whatever path
it takes. -/
theorem NativePHPCall_locals (h : Host) (t : ThreadId) (fn pj : Option String) (w : World) :
    (NativePHPCall h t fn pj w).2.locals = w.locals ∧
    (NativePHPCall h t fn pj w).2.pinned = w.pinned := by
  cases fn with
  | none => simp [NativePHPCall]
  | some fname =>
    cases hEnv : GetJNIEnv h t w with
    | mk e w1 =>
      obtain ⟨-, -, -, hl, -, hp, -⟩ := GetJNIEnv_frame_of_eq h t w w1 e hEnv
      cases e with
      | none => simp [NativePHPCall, hEnv, hl, hp]
      | some env =>
        cases hName : NewStringUTF h fname w1 with
        | mk r w2 =>
          cases r with
          | none =>
            have hw2 := NewStringUTF_none h fname w1 w2 hName
            subst hw2
            simp [NativePHPCall, hEnv, hName, hl, hp]
          | some r1 =>
            obtain ⟨hr, hw2⟩ := NewStringUTF_some h fname w1 w2 r1 hName
            cases hPar : marshalParameters h pj w2 with
            | mk o w3 =>
              cases o with
              | none =>
                obtain ⟨hl3, hp3⟩ := marshalParameters_none h pj w2 w3 hPar
                have hl2 : w2.locals = (r1, JObject.str fname) :: w1.locals := by
                  rw [hw2, hr]
                have hp2 : w2.pinned = w1.pinned := by rw [hw2]; rfl
                simp only [NativePHPCall, hEnv, hName, hPar, DeleteLocalRef, log_locals, log_pinned,
                  hl3, hp3, hl2, hp2, assocErase_cons_self, hl, hp, and_self]
              | some jp =>
                have hp3 : w3.pinned = w.pinned := by
                  rcases marshalParameters_some h pj w2 w3 jp hPar with ⟨-, -, e⟩ | ⟨p, -, -, e⟩ <;>
                    subst e <;> subst hw2 <;> simpa using hp
                rw [NativePHPCall_run h t fname pj w w1 w2 w3 env r1 jp hEnv hName hPar]
                cases h.callStaticObject w3 w.g_bridgeRouterClass w.g_nativePHPCallMethod
                    (JValue.obj (JObject.str fname)) (parametersValue pj) with
                | none =>
                  have := releaseArguments_locals h fname pj w1 w2 w3
                    (w3.log (Event.CallStaticObjectMethod w.g_bridgeRouterClass
                      w.g_nativePHPCallMethod (JValue.obj (JObject.str fname))
                      (parametersValue pj)))
                    r1 jp [] hName hPar (by simp) (by simp)
                  simp only [this, (releaseArguments_frame _ _ _).1, log_pinned]
                  simp [hl, hp3]
                | some s =>
                  have hlive := result_is_live h fname pj w1 w2 w3
                    { w3.log (Event.CallStaticObjectMethod w.g_bridgeRouterClass
                        w.g_nativePHPCallMethod (JValue.obj (JObject.str fname))
                        (parametersValue pj)) with
                      locals := (w3.fresh, JObject.str s) :: w3.locals, fresh := w3.fresh + 1 }
                    r1 jp s hName hPar rfl
                  simp only [(copyResult_frame h _ _).1, (copyResult_frame h _ _).2.1, hlive,
                    (releaseArguments_frame _ _ _).1, assocErase_cons_self]
                  simp [hl, hp3]


/-- C7. No transient reference leaks: on every path by which `NativePHPCall` or
`NativePHPCan` returns, the table of live local references and the set of pinned
character buffers are what they were at entry; and once the router has been invoked
by `NativePHPCall`, the name reference and the parameters reference (if any) are
released right after the invocation, whatever it yielded. -/
theorem no_transient_reference_leaks (h : Host) (t : ThreadId)
    (functionName parametersJSON : Option String) (w : World) :
    (NativePHPCall h t functionName parametersJSON w).2.locals = w.locals ∧
    (NativePHPCall h t functionName parametersJSON w).2.pinned = w.pinned ∧
    (NativePHPCan h t functionName w).2.locals = w.locals ∧
    (NativePHPCan h t functionName w).2.pinned = w.pinned ∧
    (∀ (fname : String) (env : JNIEnv) (w1 w2 w3 : World) (r1 : Ref) (jp : Option Ref),
      functionName = some fname →
      GetJNIEnv h t w = (some env, w1) →
      NewStringUTF h fname w1 = (some r1, w2) →
      marshalParameters h parametersJSON w2 = (some jp, w3) →
      ∃ rest, (NativePHPCall h t functionName parametersJSON w).2.trace =
        w3.trace ++
          Event.CallStaticObjectMethod w.g_bridgeRouterClass w.g_nativePHPCallMethod
            (JValue.obj (JObject.str fname)) (parametersValue parametersJSON) ::
          Event.DeleteLocalRef r1 :: (jp.map Event.DeleteLocalRef).toList ++ rest) := by
  refine ⟨(NativePHPCall_locals h t functionName parametersJSON w).1,
    (NativePHPCall_locals h t functionName parametersJSON w).2,
    (NativePHPCan_locals h t functionName w).1, (NativePHPCan_locals h t functionName w).2, ?_⟩
  intro fname env w1 w2 w3 r1 jp hfn hEnv hName hPar
  subst hfn
  rw [NativePHPCall_run h t fname parametersJSON w w1 w2 w3 env r1 jp hEnv hName hPar]
  cases h.callStaticObject w3 w.g_bridgeRouterClass w.g_nativePHPCallMethod
      (JValue.obj (JObject.str fname)) (parametersValue parametersJSON) with
  | none =>
    refine ⟨[], ?_⟩
    simp [releaseArguments_trace]
  | some s =>
    have hsplit : ∀ (res : Ref) (x : World), ∃ rest, (copyResult h res x).2.trace = x.trace ++ rest := by
      intro res x
      cases hg : GetStringUTFChars h res x with
      | mk o x1 =>
        have hx1 : ∃ r0, x1.trace = x.trace ++ r0 := by
          rw [GetStringUTFChars_eq] at hg
          refine ⟨[Event.GetStringUTFChars res], ?_⟩
          split at hg
          · split at hg
            · simp only [Prod.mk.injEq] at hg
              rw [← hg.2]
              rfl
            · simp only [Prod.mk.injEq] at hg
              rw [← hg.2]
              rfl
          · simp only [Prod.mk.injEq] at hg
            rw [← hg.2]
            rfl
        obtain ⟨r0, hr0⟩ := hx1
        cases o with
        | none =>
          refine ⟨r0 ++ [Event.DeleteLocalRef res], ?_⟩
          simp [copyResult, hg, DeleteLocalRef, hr0]
        | some buf =>
          refine ⟨r0 ++ [Event.strdup buf, Event.ReleaseStringUTFChars res buf,
            Event.DeleteLocalRef res], ?_⟩
          simp only [copyResult, hg, strdup]
          split <;> try split
          all_goals simp [DeleteLocalRef, ReleaseStringUTFChars, hr0]
    obtain ⟨rest, hrest⟩ := hsplit w3.fresh (releaseArguments r1 jp
      { w3.log (Event.CallStaticObjectMethod w.g_bridgeRouterClass w.g_nativePHPCallMethod
          (JValue.obj (JObject.str fname)) (parametersValue parametersJSON)) with
        locals := (w3.fresh, JObject.str s) :: w3.locals, fresh := w3.fresh + 1 })
    refine ⟨rest, ?_⟩
    simp only [hrest, releaseArguments_trace]
    simp

/-- An instance of C7: after `invoke("Echo.Identity", "x")` on the echoing router the
reference tables are as before, and both arguments were released right after the
invocation. -/
theorem no_transient_reference_leaks_witness :
    (NativePHPCall echoHost 0 (some "Echo.Identity") (some "x") readyWorld).2.locals
      = readyWorld.locals ∧
    ∃ rest, (NativePHPCall echoHost 0 (some "Echo.Identity") (some "x") readyWorld).2.trace =
      (NewStringUTF echoHost "x"
        (NewStringUTF echoHost "Echo.Identity" (GetJNIEnv echoHost 0 readyWorld).2).2).2.trace ++
        Event.CallStaticObjectMethod readyWorld.g_bridgeRouterClass
          readyWorld.g_nativePHPCallMethod
          (JValue.obj (JObject.str "Echo.Identity")) (parametersValue (some "x")) ::
        Event.DeleteLocalRef 102 :: ((some 103).map Event.DeleteLocalRef).toList ++ rest :=
  ⟨(no_transient_reference_leaks echoHost 0 (some "Echo.Identity") (some "x") readyWorld).1,
   (no_transient_reference_leaks echoHost 0 (some "Echo.Identity") (some "x")
      readyWorld).2.2.2.2 "Echo.Identity" 7
      (GetJNIEnv echoHost 0 readyWorld).2
      (NewStringUTF echoHost "Echo.Identity" (GetJNIEnv echoHost 0 readyWorld).2).2
      (NewStringUTF echoHost "x"
        (NewStringUTF echoHost "Echo.Identity" (GetJNIEnv echoHost 0 readyWorld).2).2).2
      102 (some 103) rfl rfl rfl rfl⟩


/-- The status code of `GetEnv` tells the context of the thread. -/
theorem GetEnv_code (t : ThreadId) (w : World) :
    (GetEnv t w).2 = w.log (Event.GetEnv t) ∧
    (∀ e, (GetEnv t w).1 = (JNI_OK, some e) ↔ w.threadCtx t = ThreadCtx.attached e) ∧
    ((GetEnv t w).1.1 = JNI_OK ↔ ∃ e, w.threadCtx t = ThreadCtx.attached e) ∧
    ((GetEnv t w).1.1 = JNI_EDETACHED ↔ w.threadCtx t = ThreadCtx.detached) := by
  unfold GetEnv
  cases hc : w.threadCtx t <;> simp [JNI_OK, JNI_EDETACHED, JNI_EVERSION]

/-- C8, as amended. `GetJNIEnv` for every state of the machine: with `g_jvm` unset it
fails without querying the machine; otherwise, if `GetEnv` reports a context it
returns that context without attaching; if `GetEnv` reports the thread as detached it
attempts to attach the thread, returning the new context when the attach succeeds and
failing when it does not; and if `GetEnv` fails in any other way it fails without
attempting to attach. -/
theorem GetJNIEnv_by_cases (h : Host) (t : ThreadId) (w : World) :
    (w.g_jvm = none → GetJNIEnv h t w = (none, w)) ∧
    (w.g_jvm ≠ none → ∀ e, (GetEnv t w).1 = (JNI_OK, some e) →
      GetJNIEnv h t w = (some e, w.log (Event.GetEnv t))) ∧
    (w.g_jvm ≠ none → (GetEnv t w).1.1 = JNI_EDETACHED →
      (GetJNIEnv h t w).2.trace = w.trace ++ [Event.GetEnv t, Event.AttachCurrentThread t] ∧
      (∀ e, h.attachOk (w.log (Event.GetEnv t)) t = some e →
        (GetJNIEnv h t w).1 = some e ∧
        (GetJNIEnv h t w).2.threadCtx t = ThreadCtx.attached e) ∧
      (h.attachOk (w.log (Event.GetEnv t)) t = none → (GetJNIEnv h t w).1 = none)) ∧
    (w.g_jvm ≠ none → (GetEnv t w).1.1 ≠ JNI_OK → (GetEnv t w).1.1 ≠ JNI_EDETACHED →
      GetJNIEnv h t w = (none, w.log (Event.GetEnv t))) := by
  obtain ⟨-, hok, hok2, hdet⟩ := GetEnv_code t w
  refine ⟨GetJNIEnv_no_jvm h t w, ?_, ?_, ?_⟩
  · intro hj e he
    obtain ⟨vm, hvm⟩ := Option.ne_none_iff_exists'.1 hj
    exact GetJNIEnv_attached h t w vm e hvm ((hok e).1 he)
  · intro hj hd
    obtain ⟨vm, hvm⟩ := Option.ne_none_iff_exists'.1 hj
    have hc := hdet.1 hd
    refine ⟨?_, ?_, ?_⟩
    · cases ha : h.attachOk (w.log (Event.GetEnv t)) t with
      | none => rw [GetJNIEnv_attach_fail h t w vm hvm hc ha]; simp
      | some e => rw [GetJNIEnv_attach_ok h t w vm e hvm hc ha]; simp
    · intro e ha
      rw [GetJNIEnv_attach_ok h t w vm e hvm hc ha]
      simp [World.threadCtx]
    · intro ha
      rw [GetJNIEnv_attach_fail h t w vm hvm hc ha]
  · intro hj h1 h2
    obtain ⟨vm, hvm⟩ := Option.ne_none_iff_exists'.1 hj
    cases hc : w.threadCtx t with
    | attached e => exact absurd (hok2.2 ⟨e, hc⟩) h1
    | detached => exact absurd (hdet.2 hc) h2
    | unsupported => exact GetJNIEnv_unsupported h t w vm hvm hc

/-- An instance of C8 as amended: thread 1 is detached and gets attached. -/
theorem GetJNIEnv_by_cases_witness :
    (GetJNIEnv echoHost 1 bootWorld).1 = some 51 ∧
    (GetJNIEnv echoHost 1 bootWorld).2.threadCtx 1 = ThreadCtx.attached 51 :=
  ((GetJNIEnv_by_cases echoHost 1 bootWorld).2.2.1 (by decide) rfl).2.1 51 rfl

/-- C8 fails as stated: thread 2 has no usable context (`GetEnv` reports an
unsupported version and no context), the machine would attach it if asked, yet
`GetJNIEnv` fails without any attempt to attach. -/
theorem GetJNIEnv_fails_without_attach :
    bootWorld.g_jvm = some 1 ∧
    (GetEnv 2 bootWorld).1 = (JNI_EVERSION, none) ∧
    echoHost.attachOk (GetEnv 2 bootWorld).2 2 = some 52 ∧
    (GetJNIEnv echoHost 2 bootWorld).1 = none ∧
    attachAttempts (GetJNIEnv echoHost 2 bootWorld).2.trace = [] :=
  ⟨rfl, rfl, rfl, rfl, rfl⟩

/-- C9. Attach on demand is idempotent per thread: after a `GetJNIEnv` that succeeded
on thread `t`, a second `GetJNIEnv` on `t` succeeds with the same context, only
queries `GetEnv`, makes no attach attempt, and leaves the thread table unchanged. -/
theorem GetJNIEnv_idempotent (h : Host) (t : ThreadId) (w w1 : World) (e : JNIEnv)
    (hFirst : GetJNIEnv h t w = (some e, w1)) :
    (GetJNIEnv h t w1).1 = some e ∧
    (GetJNIEnv h t w1).2 = w1.log (Event.GetEnv t) ∧
    (GetJNIEnv h t w1).2.threads = w1.threads ∧
    attachAttempts (GetJNIEnv h t w1).2.trace = attachAttempts w1.trace := by
  have key : GetJNIEnv h t w1 = (some e, w1.log (Event.GetEnv t)) := by
    cases hj : w.g_jvm with
    | none => rw [GetJNIEnv_no_jvm h t w hj] at hFirst; simp at hFirst
    | some vm =>
      cases hc : w.threadCtx t with
      | attached e1 =>
        rw [GetJNIEnv_attached h t w vm e1 hj hc] at hFirst
        simp only [Prod.mk.injEq, Option.some.injEq] at hFirst
        obtain ⟨he, hw⟩ := hFirst
        subst he; subst hw
        exact GetJNIEnv_attached h t _ vm e1 (by simpa using hj) (by simpa using hc)
      | detached =>
        cases ha : h.attachOk (w.log (Event.GetEnv t)) t with
        | none => rw [GetJNIEnv_attach_fail h t w vm hj hc ha] at hFirst; simp at hFirst
        | some e1 =>
          rw [GetJNIEnv_attach_ok h t w vm e1 hj hc ha] at hFirst
          simp only [Prod.mk.injEq, Option.some.injEq] at hFirst
          obtain ⟨he, hw⟩ := hFirst
          subst he; subst hw
          exact GetJNIEnv_attached h t _ vm e1 (by simpa using hj) (by simp [World.threadCtx])
      | unsupported =>
        rw [GetJNIEnv_unsupported h t w vm hj hc] at hFirst; simp at hFirst
  rw [key]
  simp [attachAttempts, Event.isAttach]

/-- An instance of C9: thread 1 is attached by the first call and found attached by
the second. -/
theorem GetJNIEnv_idempotent_witness :
    (GetJNIEnv echoHost 1 (GetJNIEnv echoHost 1 bootWorld).2).1 = some 51 ∧
    (GetJNIEnv echoHost 1 (GetJNIEnv echoHost 1 bootWorld).2).2.threads
      = (GetJNIEnv echoHost 1 bootWorld).2.threads :=
  ⟨(GetJNIEnv_idempotent echoHost 1 bootWorld (GetJNIEnv echoHost 1 bootWorld).2 51 rfl).1,
   (GetJNIEnv_idempotent echoHost 1 bootWorld (GetJNIEnv echoHost 1 bootWorld).2 51 rfl).2.2.1⟩


/-- The shape of a failed `FindClass`. -/
theorem FindClass_none (h : Host) (name : String) (w : World)
    (hf : (FindClass h name w).1 = none) :
    FindClass h name w = (none, w.log (Event.FindClass name)) := by
  unfold FindClass at hf ⊢
  cases hok : h.findClassOk w name <;> simp [hok, World.newLocal] at hf ⊢

/-- The run of `InitializeBridgeJNI` when the router class is not found: one lookup,
nothing written. -/
theorem InitializeBridgeJNI_class_missing (h : Host) (w : World)
    (hf : (FindClass h routerClassName w).1 = none) :
    InitializeBridgeJNI h w = (JNI_ERR, w.log (Event.FindClass routerClassName)) := by
  simp [InitializeBridgeJNI, FindClass_none h routerClassName w hf]

/-- The call of `GetStaticMethodID` changes nothing but the trace. -/
theorem GetStaticMethodID_world (h : Host) (cls : Ref) (name sig : String) (w w1 : World)
    (m : Option MethodID) (hm : GetStaticMethodID h cls name sig w = (m, w1)) :
    w1.g_bridgeRouterClass = w.g_bridgeRouterClass ∧
    w1.g_nativePHPCanMethod = w.g_nativePHPCanMethod := by
  simp only [GetStaticMethodID, Prod.mk.injEq] at hm
  rw [← hm.2]
  simp

/-- The run of `InitializeBridgeJNI` when the existence check cannot be resolved. -/
theorem InitializeBridgeJNI_can_missing (h : Host) (w w1 w2 w3 : World) (localClass cls : Ref)
    (hF : FindClass h routerClassName w = (some localClass, w1))
    (hG : NewGlobalRef h localClass w1 = (some cls, w2))
    (hM1 : GetStaticMethodID h cls "nativePHPCan" canSignature
      (DeleteLocalRef localClass { w2 with g_bridgeRouterClass := some cls }) = (none, w3)) :
    (InitializeBridgeJNI h w).1 = JNI_ERR := by
  have hpre : (DeleteLocalRef localClass
      { w2 with g_bridgeRouterClass := some cls }).g_bridgeRouterClass = some cls := rfl
  simp only [InitializeBridgeJNI, hF, hG, hpre, hM1]

/-- The run of `InitializeBridgeJNI` when the invoke entry point cannot be resolved. -/
theorem InitializeBridgeJNI_call_missing (h : Host) (w w1 w2 w3 w4 : World)
    (localClass cls : Ref) (canId : MethodID)
    (hF : FindClass h routerClassName w = (some localClass, w1))
    (hG : NewGlobalRef h localClass w1 = (some cls, w2))
    (hM1 : GetStaticMethodID h cls "nativePHPCan" canSignature
      (DeleteLocalRef localClass { w2 with g_bridgeRouterClass := some cls }) = (some canId, w3))
    (hM2 : GetStaticMethodID h cls "nativePHPCall" callSignature
      { w3 with g_nativePHPCanMethod := some canId } = (none, w4)) :
    (InitializeBridgeJNI h w).1 = JNI_ERR := by
  have hpre : (DeleteLocalRef localClass
      { w2 with g_bridgeRouterClass := some cls }).g_bridgeRouterClass = some cls := rfl
  simp only [InitializeBridgeJNI, hF, hG, hpre, hM1, hM2]

/-- The five ways through `InitializeBridgeJNI`. -/
theorem InitializeBridgeJNI_cases (h : Host) (w : World) :
    ((FindClass h routerClassName w).1 = none ∧ (InitializeBridgeJNI h w).1 = JNI_ERR) ∨
    (∃ (localClass : Ref) (w1 w2 : World),
      FindClass h routerClassName w = (some localClass, w1) ∧
      NewGlobalRef h localClass w1 = (none, w2) ∧ (InitializeBridgeJNI h w).1 = JNI_ERR) ∨
    (∃ (localClass cls : Ref) (w1 w2 w3 : World),
      FindClass h routerClassName w = (some localClass, w1) ∧
      NewGlobalRef h localClass w1 = (some cls, w2) ∧
      GetStaticMethodID h cls "nativePHPCan" canSignature
        (DeleteLocalRef localClass { w2 with g_bridgeRouterClass := some cls }) = (none, w3) ∧
      (InitializeBridgeJNI h w).1 = JNI_ERR) ∨
    (∃ (localClass cls : Ref) (canId : MethodID) (w1 w2 w3 w4 : World),
      FindClass h routerClassName w = (some localClass, w1) ∧
      NewGlobalRef h localClass w1 = (some cls, w2) ∧
      GetStaticMethodID h cls "nativePHPCan" canSignature
        (DeleteLocalRef localClass { w2 with g_bridgeRouterClass := some cls })
        = (some canId, w3) ∧
      GetStaticMethodID h cls "nativePHPCall" callSignature
        { w3 with g_nativePHPCanMethod := some canId } = (none, w4) ∧
      (InitializeBridgeJNI h w).1 = JNI_ERR) ∨
    (∃ (localClass cls : Ref) (canId callId : MethodID) (w1 w2 w3 w4 : World),
      FindClass h routerClassName w = (some localClass, w1) ∧
      NewGlobalRef h localClass w1 = (some cls, w2) ∧
      GetStaticMethodID h cls "nativePHPCan" canSignature
        (DeleteLocalRef localClass { w2 with g_bridgeRouterClass := some cls })
        = (some canId, w3) ∧
      GetStaticMethodID h cls "nativePHPCall" callSignature
        { w3 with g_nativePHPCanMethod := some canId } = (some callId, w4) ∧
      InitializeBridgeJNI h w = (JNI_OK, { w4 with g_nativePHPCallMethod := some callId }) ∧
      w4.g_bridgeRouterClass = some cls ∧ w4.g_nativePHPCanMethod = some canId) := by
  cases hF : FindClass h routerClassName w with
  | mk lc w1 =>
    cases lc with
    | none =>
      left
      exact ⟨by simp, by simp [InitializeBridgeJNI, hF]⟩
    | some localClass =>
      right
      cases hG : NewGlobalRef h localClass w1 with
      | mk g w2 =>
        cases g with
        | none =>
          left
          exact ⟨localClass, w1, w2, rfl, hG, by simp [InitializeBridgeJNI, hF, hG, DeleteLocalRef]⟩
        | some cls =>
          right
          cases hM1 : GetStaticMethodID h cls "nativePHPCan" canSignature
              (DeleteLocalRef localClass { w2 with g_bridgeRouterClass := some cls }) with
          | mk m1 w3 =>
            have hpre : (DeleteLocalRef localClass
                { w2 with g_bridgeRouterClass := some cls }).g_bridgeRouterClass = some cls := rfl
            cases m1 with
            | none =>
              left
              refine ⟨localClass, cls, w1, w2, w3, rfl, hG, hM1, ?_⟩
              simp only [InitializeBridgeJNI, hF, hG, hpre, hM1]
            | some canId =>
              right
              cases hM2 : GetStaticMethodID h cls "nativePHPCall" callSignature
                  { w3 with g_nativePHPCanMethod := some canId } with
              | mk m2 w4 =>
                cases m2 with
                | none =>
                  left
                  refine ⟨localClass, cls, canId, w1, w2, w3, w4, rfl, hG, hM1, hM2, ?_⟩
                  simp only [InitializeBridgeJNI, hF, hG, hpre, hM1, hM2]
                | some callId =>
                  right
                  obtain ⟨hc3, -⟩ := GetStaticMethodID_world h cls _ _ _ w3 _ hM1
                  obtain ⟨hc4, hm4⟩ := GetStaticMethodID_world h cls _ _ _ w4 _ hM2
                  refine ⟨localClass, cls, canId, callId, w1, w2, w3, w4, rfl, hG, hM1, hM2,
                    ?_, ?_, ?_⟩
                  · simp only [InitializeBridgeJNI, hF, hG, hpre, hM1, hM2]
                  · rw [hc4]
                    show w3.g_bridgeRouterClass = some cls
                    rw [hc3]
                    rfl
                  · rw [hm4]

/-- C10. `InitializeBridgeJNI`, run with the three cached handles null, returns
`JNI_OK` or `JNI_ERR`; it returns `JNI_OK` exactly when the router class is found, a
global reference to it is created, and both method ids are resolved; when the class
is not found it returns `JNI_ERR` after that single lookup and leaves all three
handles null; when either method id is not resolved it returns `JNI_ERR`; and whenever
it returns `JNI_OK` all three handles are set. -/
theorem InitializeBridgeJNI_result (h : Host) (w : World)
    (hUninit : w.g_bridgeRouterClass = none ∧ w.g_nativePHPCanMethod = none ∧
      w.g_nativePHPCallMethod = none) :
    ((InitializeBridgeJNI h w).1 = JNI_OK ∨ (InitializeBridgeJNI h w).1 = JNI_ERR) ∧
    ((InitializeBridgeJNI h w).1 = JNI_OK ↔
      ∃ (localClass cls : Ref) (canId callId : MethodID) (w1 w2 w3 w4 : World),
        FindClass h routerClassName w = (some localClass, w1) ∧
        NewGlobalRef h localClass w1 = (some cls, w2) ∧
        GetStaticMethodID h cls "nativePHPCan" canSignature
          (DeleteLocalRef localClass { w2 with g_bridgeRouterClass := some cls })
          = (some canId, w3) ∧
        GetStaticMethodID h cls "nativePHPCall" callSignature
          { w3 with g_nativePHPCanMethod := some canId } = (some callId, w4)) ∧
    ((FindClass h routerClassName w).1 = none →
      (InitializeBridgeJNI h w).1 = JNI_ERR ∧
      (InitializeBridgeJNI h w).2 = w.log (Event.FindClass routerClassName) ∧
      (InitializeBridgeJNI h w).2.g_bridgeRouterClass = none ∧
      (InitializeBridgeJNI h w).2.g_nativePHPCanMethod = none ∧
      (InitializeBridgeJNI h w).2.g_nativePHPCallMethod = none) ∧
    (∀ (localClass cls : Ref) (w1 w2 w3 : World),
      FindClass h routerClassName w = (some localClass, w1) →
      NewGlobalRef h localClass w1 = (some cls, w2) →
      GetStaticMethodID h cls "nativePHPCan" canSignature
        (DeleteLocalRef localClass { w2 with g_bridgeRouterClass := some cls }) = (none, w3) →
      (InitializeBridgeJNI h w).1 = JNI_ERR) ∧
    (∀ (localClass cls : Ref) (canId : MethodID) (w1 w2 w3 w4 : World),
      FindClass h routerClassName w = (some localClass, w1) →
      NewGlobalRef h localClass w1 = (some cls, w2) →
      GetStaticMethodID h cls "nativePHPCan" canSignature
        (DeleteLocalRef localClass { w2 with g_bridgeRouterClass := some cls })
        = (some canId, w3) →
      GetStaticMethodID h cls "nativePHPCall" callSignature
        { w3 with g_nativePHPCanMethod := some canId } = (none, w4) →
      (InitializeBridgeJNI h w).1 = JNI_ERR) ∧
    ((InitializeBridgeJNI h w).1 = JNI_OK →
      (InitializeBridgeJNI h w).2.g_bridgeRouterClass ≠ none ∧
      (InitializeBridgeJNI h w).2.g_nativePHPCanMethod ≠ none ∧
      (InitializeBridgeJNI h w).2.g_nativePHPCallMethod ≠ none) := by
  obtain ⟨hu1, hu2, hu3⟩ := hUninit
  have hcan : ∀ (localClass cls : Ref) (w1 w2 w3 : World),
      FindClass h routerClassName w = (some localClass, w1) →
      NewGlobalRef h localClass w1 = (some cls, w2) →
      GetStaticMethodID h cls "nativePHPCan" canSignature
        (DeleteLocalRef localClass { w2 with g_bridgeRouterClass := some cls }) = (none, w3) →
      (InitializeBridgeJNI h w).1 = JNI_ERR := fun localClass cls w1 w2 w3 hF hG hM1 =>
    InitializeBridgeJNI_can_missing h w w1 w2 w3 localClass cls hF hG hM1
  have hcall : ∀ (localClass cls : Ref) (canId : MethodID) (w1 w2 w3 w4 : World),
      FindClass h routerClassName w = (some localClass, w1) →
      NewGlobalRef h localClass w1 = (some cls, w2) →
      GetStaticMethodID h cls "nativePHPCan" canSignature
        (DeleteLocalRef localClass { w2 with g_bridgeRouterClass := some cls })
        = (some canId, w3) →
      GetStaticMethodID h cls "nativePHPCall" callSignature
        { w3 with g_nativePHPCanMethod := some canId } = (none, w4) →
      (InitializeBridgeJNI h w).1 = JNI_ERR :=
    fun localClass cls canId w1 w2 w3 w4 hF hG hM1 hM2 =>
      InitializeBridgeJNI_call_missing h w w1 w2 w3 w4 localClass cls canId hF hG hM1 hM2
  have hne : JNI_ERR ≠ JNI_OK := by decide
  have hmiss : (FindClass h routerClassName w).1 = none →
      (InitializeBridgeJNI h w).1 = JNI_ERR ∧
      (InitializeBridgeJNI h w).2 = w.log (Event.FindClass routerClassName) ∧
      (InitializeBridgeJNI h w).2.g_bridgeRouterClass = none ∧
      (InitializeBridgeJNI h w).2.g_nativePHPCanMethod = none ∧
      (InitializeBridgeJNI h w).2.g_nativePHPCallMethod = none := by
    intro hf
    rw [InitializeBridgeJNI_class_missing h w hf]
    simp [hu1, hu2, hu3]
  rcases InitializeBridgeJNI_cases h w with
    ⟨hF, he⟩ | ⟨lc, w1, w2, hF, hG, he⟩ | ⟨lc, cls, w1, w2, w3, hF, hG, hM1, he⟩ |
    ⟨lc, cls, canId, w1, w2, w3, w4, hF, hG, hM1, hM2, he⟩ |
    ⟨lc, cls, canId, callId, w1, w2, w3, w4, hF, hG, hM1, hM2, he, hc, hm⟩
  · refine ⟨Or.inr he, ⟨fun hok => absurd (he.symm.trans hok) hne, ?_⟩, hmiss,
      hcan, hcall, fun hok => absurd (he.symm.trans hok) hne⟩
    rintro ⟨lc, cls, canId, callId, w1, w2, w3, w4, hF2, -, -, -⟩
    rw [hF2] at hF
    simp at hF
  · refine ⟨Or.inr he, ⟨fun hok => absurd (he.symm.trans hok) hne, ?_⟩, hmiss,
      hcan, hcall, fun hok => absurd (he.symm.trans hok) hne⟩
    rintro ⟨lc2, cls, canId, callId, v1, v2, v3, v4, hF2, hG2, -, -⟩
    rw [hF] at hF2
    simp only [Prod.mk.injEq, Option.some.injEq] at hF2
    obtain ⟨e1, e2⟩ := hF2
    subst e1; subst e2
    rw [hG] at hG2
    simp at hG2
  · refine ⟨Or.inr he, ⟨fun hok => absurd (he.symm.trans hok) hne, ?_⟩, hmiss,
      hcan, hcall, fun hok => absurd (he.symm.trans hok) hne⟩
    rintro ⟨lc2, cls2, canId, callId, v1, v2, v3, v4, hF2, hG2, hM12, -⟩
    rw [hF] at hF2
    simp only [Prod.mk.injEq, Option.some.injEq] at hF2
    obtain ⟨e1, e2⟩ := hF2
    subst e1; subst e2
    rw [hG] at hG2
    simp only [Prod.mk.injEq, Option.some.injEq] at hG2
    obtain ⟨e3, e4⟩ := hG2
    subst e3; subst e4
    rw [hM1] at hM12
    simp at hM12
  · refine ⟨Or.inr he, ⟨fun hok => absurd (he.symm.trans hok) hne, ?_⟩, hmiss,
      hcan, hcall, fun hok => absurd (he.symm.trans hok) hne⟩
    rintro ⟨lc2, cls2, canId2, callId, v1, v2, v3, v4, hF2, hG2, hM12, hM22⟩
    rw [hF] at hF2
    simp only [Prod.mk.injEq, Option.some.injEq] at hF2
    obtain ⟨e1, e2⟩ := hF2
    subst e1; subst e2
    rw [hG] at hG2
    simp only [Prod.mk.injEq, Option.some.injEq] at hG2
    obtain ⟨e3, e4⟩ := hG2
    subst e3; subst e4
    rw [hM1] at hM12
    simp only [Prod.mk.injEq, Option.some.injEq] at hM12
    obtain ⟨e5, e6⟩ := hM12
    subst e5; subst e6
    rw [hM2] at hM22
    simp at hM22
  · refine ⟨Or.inl (by rw [he]), ⟨fun _ => ⟨lc, cls, canId, callId, w1, w2, w3, w4, hF, hG, hM1, hM2⟩,
      fun _ => by rw [he]⟩, hmiss, hcan, hcall, fun _ => ?_⟩
    rw [he]
    simp [hc, hm]

/-- An instance of C10: on the echoing machine initialization succeeds from the boot
world and sets the three handles. -/
theorem InitializeBridgeJNI_result_witness :
    (InitializeBridgeJNI echoHost bootWorld).1 = JNI_OK ∧
    (InitializeBridgeJNI echoHost bootWorld).2.g_bridgeRouterClass ≠ none ∧
    (InitializeBridgeJNI echoHost bootWorld).2.g_nativePHPCanMethod ≠ none ∧
    (InitializeBridgeJNI echoHost bootWorld).2.g_nativePHPCallMethod ≠ none :=
  ⟨rfl, (InitializeBridgeJNI_result echoHost bootWorld ⟨rfl, rfl, rfl⟩).2.2.2.2.2 rfl⟩


/-- The router invocations recorded by `NativePHPCan` once the name is marshalled:
exactly one is added. -/
theorem NativePHPCan_invocations (h : Host) (t : ThreadId) (fname : String)
    (w w1 w2 : World) (env : JNIEnv) (r1 : Ref)
    (hEnv : GetJNIEnv h t w = (some env, w1))
    (hName : NewStringUTF h fname w1 = (some r1, w2)) :
    hostInvocations (NativePHPCan h t (some fname) w).2.trace =
      hostInvocations w.trace ++
        [Event.CallStaticIntMethod w.g_bridgeRouterClass w.g_nativePHPCanMethod
          (JValue.obj (JObject.str fname))] := by
  obtain ⟨-, -, -, -, -, -, hinv⟩ := GetJNIEnv_frame_of_eq h t w w1 _ hEnv
  obtain ⟨-, hw2⟩ := NewStringUTF_some h fname w1 w2 r1 hName
  rw [NativePHPCan_run h t fname w w1 w2 env r1 hEnv hName, ← hinv, hw2]
  simp [hostInvocations, DeleteLocalRef, Event.isInvoke]

/-- When the parameters cannot be marshalled, `NativePHPCall` returns null without
invoking the router. -/
theorem NativePHPCall_parameters_fail (h : Host) (t : ThreadId) (fname : String)
    (params : Option String) (w w1 w2 w3 : World) (env : JNIEnv) (r1 : Ref)
    (hEnv : GetJNIEnv h t w = (some env, w1))
    (hName : NewStringUTF h fname w1 = (some r1, w2))
    (hPar : marshalParameters h params w2 = (none, w3)) :
    (NativePHPCall h t (some fname) params w).1 = none ∧
    hostInvocations (NativePHPCall h t (some fname) params w).2.trace
      = hostInvocations w.trace := by
  obtain ⟨-, -, -, -, -, -, hinv⟩ := GetJNIEnv_frame_of_eq h t w w1 _ hEnv
  obtain ⟨-, hw2⟩ := NewStringUTF_some h fname w1 w2 r1 hName
  have hw3 : ∃ p, w3 = w2.log (Event.NewStringUTF p) := by
    cases params with
    | none => simp [marshalParameters] at hPar
    | some p =>
      cases hP : NewStringUTF h p w2 with
      | mk r2 w3b =>
        cases r2 with
        | none =>
          have hw3 := NewStringUTF_none h p w2 w3b hP
          simp only [marshalParameters, hP, Prod.mk.injEq, true_and] at hPar
          exact ⟨p, by rw [← hPar, hw3]⟩
        | some r2 => simp [marshalParameters, hP] at hPar
  obtain ⟨p, hw3⟩ := hw3
  simp only [NativePHPCall, hEnv, hName, hPar, true_and]
  rw [hw3, hw2, ← hinv]
  simp [hostInvocations, DeleteLocalRef, Event.isInvoke]

/-- C1, as amended. After `InitializeBridgeJNI` has failed because the router class
was not found, the three cached handles are still null.  From that state
`NativePHPCan` returns 0 and `NativePHPCall` returns null without invoking the router
when `functionName` is null, when `GetJNIEnv` fails, or when the name cannot be
marshalled (for `NativePHPCall` also when the parameters cannot be marshalled).  When
a context is there and the marshalling succeeds, each of them does invoke its router
entry point, with the null class and the null method id, and `NativePHPCan` returns
whatever that invocation yields. -/
theorem calls_after_failed_initialization (h : Host) (w0 w : World) (r : Int) (t : ThreadId)
    (functionName parametersJSON : Option String)
    (hUninit : w0.g_bridgeRouterClass = none ∧ w0.g_nativePHPCanMethod = none ∧
      w0.g_nativePHPCallMethod = none)
    (hMissing : (FindClass h routerClassName w0).1 = none)
    (hInit : InitializeBridgeJNI h w0 = (r, w)) :
    r = JNI_ERR ∧
    (w.g_bridgeRouterClass = none ∧ w.g_nativePHPCanMethod = none ∧
      w.g_nativePHPCallMethod = none) ∧
    ((functionName = none ∨ (GetJNIEnv h t w).1 = none ∨
        ∃ fname, functionName = some fname ∧
          (NewStringUTF h fname (GetJNIEnv h t w).2).1 = none) →
      (NativePHPCall h t functionName parametersJSON w).1 = none ∧
      (NativePHPCan h t functionName w).1 = 0 ∧
      hostInvocations (NativePHPCall h t functionName parametersJSON w).2.trace
        = hostInvocations w.trace ∧
      hostInvocations (NativePHPCan h t functionName w).2.trace = hostInvocations w.trace) ∧
    (∀ (fname : String) (env : JNIEnv) (w1 w2 : World) (r1 : Ref),
      functionName = some fname →
      GetJNIEnv h t w = (some env, w1) →
      NewStringUTF h fname w1 = (some r1, w2) →
      hostInvocations (NativePHPCan h t functionName w).2.trace =
        hostInvocations w.trace ++
          [Event.CallStaticIntMethod none none (JValue.obj (JObject.str fname))] ∧
      (NativePHPCan h t functionName w).1 =
        h.callStaticInt w2 none none (JValue.obj (JObject.str fname)) ∧
      (∀ w3, marshalParameters h parametersJSON w2 = (none, w3) →
        (NativePHPCall h t functionName parametersJSON w).1 = none ∧
        hostInvocations (NativePHPCall h t functionName parametersJSON w).2.trace
          = hostInvocations w.trace) ∧
      (∀ jp w3, marshalParameters h parametersJSON w2 = (some jp, w3) →
        hostInvocations (NativePHPCall h t functionName parametersJSON w).2.trace =
          hostInvocations w.trace ++
            [Event.CallStaticObjectMethod none none (JValue.obj (JObject.str fname))
              (parametersValue parametersJSON)])) := by
  obtain ⟨hu1, hu2, hu3⟩ := hUninit
  rw [InitializeBridgeJNI_class_missing h w0 hMissing] at hInit
  simp only [Prod.mk.injEq] at hInit
  obtain ⟨hr, hw⟩ := hInit
  have hc : w.g_bridgeRouterClass = none := by rw [← hw]; simpa using hu1
  have hm1 : w.g_nativePHPCanMethod = none := by rw [← hw]; simpa using hu2
  have hm2 : w.g_nativePHPCallMethod = none := by rw [← hw]; simpa using hu3
  refine ⟨hr.symm, ⟨hc, hm1, hm2⟩, ?_, ?_⟩
  · intro hFail
    exact failed_step_terminal_aux h t functionName parametersJSON w hFail
  · intro fname env w1 w2 r1 hfn hEnv hName
    subst hfn
    have hinvCan := NativePHPCan_invocations h t fname w w1 w2 env r1 hEnv hName
    have hrunCan := NativePHPCan_run h t fname w w1 w2 env r1 hEnv hName
    rw [hc, hm1] at hinvCan hrunCan
    refine ⟨hinvCan, by rw [hrunCan], ?_, ?_⟩
    · intro w3 hPar
      exact NativePHPCall_parameters_fail h t fname parametersJSON w w1 w2 w3 env r1 hEnv hName hPar
    · intro jp w3 hPar
      have := NativePHPCall_invocations h t fname parametersJSON w w1 w2 w3 env r1 jp hEnv hName hPar
      rw [hc, hm2] at this
      exact this

/-- An instance of C1 as amended: the initialization fails for want of the router
class, and a call with a null name then returns the sentinel without reaching the
router. -/
theorem calls_after_failed_initialization_witness :
    (InitializeBridgeJNI noRouterHost bootWorld).1 = JNI_ERR ∧
    (NativePHPCall noRouterHost 0 none none (InitializeBridgeJNI noRouterHost bootWorld).2).1
      = none ∧
    (NativePHPCan noRouterHost 0 none (InitializeBridgeJNI noRouterHost bootWorld).2).1 = 0 :=
  ⟨(calls_after_failed_initialization noRouterHost bootWorld
      (InitializeBridgeJNI noRouterHost bootWorld).2
      (InitializeBridgeJNI noRouterHost bootWorld).1 0 none none
      ⟨rfl, rfl, rfl⟩ rfl rfl).1,
   ((calls_after_failed_initialization noRouterHost bootWorld
      (InitializeBridgeJNI noRouterHost bootWorld).2
      (InitializeBridgeJNI noRouterHost bootWorld).1 0 none none
      ⟨rfl, rfl, rfl⟩ rfl rfl).2.2.1 (Or.inl rfl)).1,
   ((calls_after_failed_initialization noRouterHost bootWorld
      (InitializeBridgeJNI noRouterHost bootWorld).2
      (InitializeBridgeJNI noRouterHost bootWorld).1 0 none none
      ⟨rfl, rfl, rfl⟩ rfl rfl).2.2.1 (Or.inl rfl)).2.1⟩

/-- C1 fails as stated: the router class is missing, `InitializeBridgeJNI` returns
`JNI_ERR` and leaves the handles null; `g_jvm` is set and thread 0 is attached; and
then `NativePHPCan("Location.Get")` and `NativePHPCall("Location.Get", null)` each
invoke their router entry point with the null class and the null method id. -/
theorem uninitialised_call_enters_router :
    (FindClass noRouterHost routerClassName bootWorld).1 = none ∧
    (InitializeBridgeJNI noRouterHost bootWorld).1 = JNI_ERR ∧
    (InitializeBridgeJNI noRouterHost bootWorld).2.g_bridgeRouterClass = none ∧
    (InitializeBridgeJNI noRouterHost bootWorld).2.g_nativePHPCanMethod = none ∧
    (InitializeBridgeJNI noRouterHost bootWorld).2.g_nativePHPCallMethod = none ∧
    hostInvocations (NativePHPCan noRouterHost 0 (some "Location.Get")
        (InitializeBridgeJNI noRouterHost bootWorld).2).2.trace =
      [Event.CallStaticIntMethod none none (JValue.obj (JObject.str "Location.Get"))] ∧
    hostInvocations (NativePHPCall noRouterHost 0 (some "Location.Get") none
        (InitializeBridgeJNI noRouterHost bootWorld).2).2.trace =
      [Event.CallStaticObjectMethod none none (JValue.obj (JObject.str "Location.Get"))
        JValue.null] := by
  refine ⟨rfl, rfl, rfl, rfl, rfl, ?_, ?_⟩ <;> decide

end BridgeJNI
